import Mathlib

/-!
Verification of the metabox intelligent-retrieval core against its
natural-language specification.

The Python sources under `backend/app/services/` are shallowly embedded:
strings are lists of characters (`Str`), Python floats are modelled as exact
rationals (`ℚ`), dynamically-typed metadata dictionaries are modelled by the
`PyVal` type, fallible calls to external backends are modelled with `Except`,
and Python's stable `list.sort(key=..., reverse=True)` is modelled by a stable
descending insertion sort (extensionally equal to any stable sort by key).
-/

/-- Python strings are modelled as lists of characters. -/
abbrev Str := List Char

/-- Python `str.lower()`. Our inputs only exercise ASCII case folding;
CJK characters are fixed points of both implementations. -/
def lowerStr (s : Str) : Str := s.map Char.toLower

/-- Helper for `splitWs`: accumulates the current token (reversed). -/
def splitWsAux : Str → Str → List Str
  | [], acc => if acc.isEmpty then [] else [acc.reverse]
  | c :: rest, acc =>
    if c.isWhitespace then
      if acc.isEmpty then splitWsAux rest [] else acc.reverse :: splitWsAux rest []
    else splitWsAux rest (c :: acc)

/-- Python `str.split()` with no argument: split on whitespace runs,
discarding empty tokens. -/
def splitWs (s : Str) : List Str := splitWsAux s []

/-- Python `str.strip()`: remove leading and trailing whitespace. -/
def stripWs (s : Str) : Str :=
  ((s.dropWhile Char.isWhitespace).reverse.dropWhile Char.isWhitespace).reverse

/-- Python `needle in haystack` for strings: substring test. -/
def containsSub (hay ndl : Str) : Bool :=
  match hay with
  | [] => ndl.isEmpty
  | _ :: t => ndl.isPrefixOf hay || containsSub t ndl

/-- Model of iterating a Python `set(...)` built from a list: duplicates are
dropped, keeping the first occurrence.  (CPython's actual iteration order is
hash-dependent; every claim below that depends on the order uses singleton
sets, for which the two agree.) -/
def dedupFirst : List Str → List Str
  | [] => []
  | x :: xs => x :: (dedupFirst xs).filter (fun y => ¬ (y = x))

/-- Python `str.split(sep)` for a single-character separator, keeping empty
pieces (used for dot-paths in the metadata filter). -/
def splitChar (sep : Char) (s : Str) : List Str :=
  match s with
  | [] => [[]]
  | c :: rest =>
    if c = sep then [] :: splitChar sep rest
    else
      match splitChar sep rest with
      | [] => [[c]]
      | t :: ts => (c :: t) :: ts

/-- Dynamically-typed Python values, as they occur in document metadata. -/
inductive PyVal where
  | pnone
  | pbool (b : Bool)
  | pnum (q : ℚ)
  | pstr (s : Str)
  | plist (l : List PyVal)
  | pdict (l : List (Str × PyVal))

mutual

/-- Decidable equality for dynamic values (the nested inductive prevents
automatic derivation). -/
def PyVal.decEq : (a b : PyVal) → Decidable (a = b)
  | .pnone, .pnone => isTrue rfl
  | .pbool a, .pbool b =>
    match instDecidableEqBool a b with
    | isTrue h => isTrue (by rw [h])
    | isFalse h => isFalse (by intro hh; injection hh; contradiction)
  | .pnum a, .pnum b =>
    match instDecidableEqRat a b with
    | isTrue h => isTrue (by rw [h])
    | isFalse h => isFalse (by intro hh; injection hh; contradiction)
  | .pstr a, .pstr b =>
    match instDecidableEqList a b with
    | isTrue h => isTrue (by rw [h])
    | isFalse h => isFalse (by intro hh; injection hh; contradiction)
  | .plist a, .plist b =>
    match PyVal.decEqList a b with
    | isTrue h => isTrue (by rw [h])
    | isFalse h => isFalse (by intro hh; injection hh; contradiction)
  | .pdict a, .pdict b =>
    match PyVal.decEqDict a b with
    | isTrue h => isTrue (by rw [h])
    | isFalse h => isFalse (by intro hh; injection hh; contradiction)
  | .pnone, .pbool _ | .pnone, .pnum _ | .pnone, .pstr _ | .pnone, .plist _
  | .pnone, .pdict _ | .pbool _, .pnone | .pbool _, .pnum _ | .pbool _, .pstr _
  | .pbool _, .plist _ | .pbool _, .pdict _ | .pnum _, .pnone | .pnum _, .pbool _
  | .pnum _, .pstr _ | .pnum _, .plist _ | .pnum _, .pdict _ | .pstr _, .pnone
  | .pstr _, .pbool _ | .pstr _, .pnum _ | .pstr _, .plist _ | .pstr _, .pdict _
  | .plist _, .pnone | .plist _, .pbool _ | .plist _, .pnum _ | .plist _, .pstr _
  | .plist _, .pdict _ | .pdict _, .pnone | .pdict _, .pbool _ | .pdict _, .pnum _
  | .pdict _, .pstr _ | .pdict _, .plist _ => isFalse (by intro hh; exact PyVal.noConfusion hh)

/-- Decidable equality for lists of dynamic values. -/
def PyVal.decEqList : (a b : List PyVal) → Decidable (a = b)
  | [], [] => isTrue rfl
  | [], _ :: _ => isFalse (by intro hh; exact List.noConfusion hh)
  | _ :: _, [] => isFalse (by intro hh; exact List.noConfusion hh)
  | x :: xs, y :: ys =>
    match PyVal.decEq x y, PyVal.decEqList xs ys with
    | isTrue h1, isTrue h2 => isTrue (by rw [h1, h2])
    | isFalse h1, _ => isFalse (by intro hh; injection hh; contradiction)
    | _, isFalse h2 => isFalse (by intro hh; injection hh; contradiction)

/-- Decidable equality for string-keyed association lists of dynamic
values. -/
def PyVal.decEqDict : (a b : List (Str × PyVal)) → Decidable (a = b)
  | [], [] => isTrue rfl
  | [], _ :: _ => isFalse (by intro hh; exact List.noConfusion hh)
  | _ :: _, [] => isFalse (by intro hh; exact List.noConfusion hh)
  | (k1, v1) :: xs, (k2, v2) :: ys =>
    match instDecidableEqList k1 k2, PyVal.decEq v1 v2, PyVal.decEqDict xs ys with
    | isTrue h0, isTrue h1, isTrue h2 => isTrue (by rw [h0, h1, h2])
    | isFalse h0, _, _ =>
      isFalse (by intro hh; injection hh with hp _; injection hp; contradiction)
    | _, isFalse h1, _ =>
      isFalse (by intro hh; injection hh with hp _; injection hp; contradiction)
    | _, _, isFalse h2 => isFalse (by intro hh; injection hh; contradiction)

end

instance : DecidableEq PyVal := PyVal.decEq

/-- Python truthiness of a value. -/
def pyTruthy : PyVal → Bool
  | .pnone => false
  | .pbool b => b
  | .pnum q => ¬ (q = 0)
  | .pstr s => ¬ s.isEmpty
  | .plist l => ¬ l.isEmpty
  | .pdict l => ¬ l.isEmpty

/-- First-match association lookup (Python dict lookup; dict keys are
unique, so first match is the only match). -/
def alookup : List (Str × PyVal) → Str → Option PyVal
  | [], _ => none
  | (k, v) :: t, key => if k = key then some v else alookup t key

/-- `metadata.get(key)` on a metadata dictionary. Non-dict metadata would
raise in Python before reaching any of the embedded accessors;
we only model dict-valued metadata here (`none` otherwise). -/
def dictGet (m : PyVal) (k : Str) : Option PyVal :=
  match m with
  | .pdict l => alookup l k
  | _ => none

/-- Truthiness of an optional lookup result (`None` for a missing key). -/
def optTruthy : Option PyVal → Bool
  | some v => pyTruthy v
  | none => false

/-- Python `==` between dynamic values: numbers (and booleans, which are
numeric in Python) compare by value, other types structurally.
(Python's dict `==` ignores key order; the documents in this development
never compare dicts, so the order-sensitive approximation is harmless.) -/
def pyEq : PyVal → PyVal → Bool
  | .pnone, .pnone => true
  | .pbool a, .pbool b => a = b
  | .pbool a, .pnum q => (if a then (1 : ℚ) else 0) = q
  | .pnum q, .pbool a => q = (if a then (1 : ℚ) else 0)
  | .pnum a, .pnum b => a = b
  | .pstr a, .pstr b => a = b
  | .plist a, .plist b => pyEqList a b
  | .pdict a, .pdict b => pyEqDict a b
  | _, _ => false
where
  pyEqList : List PyVal → List PyVal → Bool
    | [], [] => true
    | a :: as', b :: bs => pyEq a b && pyEqList as' bs
    | _, _ => false
  pyEqDict : List (Str × PyVal) → List (Str × PyVal) → Bool
    | [], [] => true
    | (k, v) :: as', (k2, v2) :: bs => k = k2 && pyEq v v2 && pyEqDict as' bs
    | _, _ => false

/-- A retrieved candidate document (the dicts flowing through the
retrieval services). Optional fusion fields are added by the fusion
strategies of the hybrid retriever. -/
structure Doc where
  id : Str
  content : Str := []
  score : ℚ := 0
  source_file : Str := []
  knowledge_base_id : Str := []
  title : Str := []
  source : Str := []
  fused_score : Option ℚ := none
  vector_score : Option ℚ := none
  keyword_score : Option ℚ := none
  metadata : PyVal := .pdict []
deriving DecidableEq

/-- `result.get("fused_score", result["score"])` — the sort key used by
`HybridRetriever._deduplicate_and_sort`. -/
def Doc.sortKey (d : Doc) : ℚ := d.fused_score.getD d.score

section Reranker

/-- `RerankResult` dataclass from `reranker.py`. -/
structure RerankResult where
  id : Str
  content : Str
  original_score : ℚ
  rerank_score : ℚ
  final_score : ℚ
  source_file : Str := []
  knowledge_base_id : Str := []
  metadata : PyVal := .pdict []
  rerank_reason : Str := []
deriving DecidableEq

/-- `RerankStrategy` enum from `reranker.py`. -/
inductive RerankStrategy where
  | cross_encoder
  | rule_based
  | hybrid
deriving DecidableEq

/-- Stable descending insertion of one element (elements with an equal key
stay behind earlier ones). -/
def insDesc (key : α → ℚ) (x : α) : List α → List α
  | [] => [x]
  | y :: ys => if key y ≤ key x then x :: y :: ys else y :: insDesc key x ys

/-- Python's stable `list.sort(key=..., reverse=True)`: stable sorts by a key
are extensionally unique, so a stable descending insertion sort is
extensionally equal to CPython's Timsort here. -/
def sortDescBy (key : α → ℚ) (l : List α) : List α := l.foldr (insDesc key) []

namespace Reranker

/-- The hard-coded rule weights of `Reranker.__init__`. -/
def w_exact_match : ℚ := 3/10

/-- Rule weight `keyword_density`. -/
def w_keyword_density : ℚ := 2/10

/-- Rule weight `length_penalty`. -/
def w_length_penalty : ℚ := 1/10

/-- Rule weight `freshness`. -/
def w_freshness : ℚ := 1/10

/-- Rule weight `source_quality`. -/
def w_source_quality : ℚ := 1/10

/-- Rule weight `position_bonus`. -/
def w_position_bonus : ℚ := 1/10

/-- Rule weight `format_quality`. -/
def w_format_quality : ℚ := 1/10

/-- Number of contiguous-phrase hits in `_calculate_exact_match`: pairs
`(i, j)` with `0 ≤ i < len(qws)`, `i+1 ≤ j ≤ len(qws)` whose joined slice
occurs in the lowered content; each hit contributes `0.1`. -/
def phraseHits (qws : List Str) (contentLower : Str) : ℕ :=
  ((List.range qws.length).map (fun i =>
    ((List.range' (i + 1) (qws.length - i)).filter (fun j =>
      containsSub contentLower (List.intercalate [' '] ((qws.drop i).take (j - i))))).length)).sum

/-- Size of `query_words.intersection(content_words)` in
`_calculate_exact_match`. -/
def matchedWords (qws cws : List Str) : ℕ :=
  (qws.filter (fun w => cws.contains w)).length

/-- `Reranker._calculate_exact_match`. -/
def calculate_exact_match (query content : Str) : ℚ :=
  let query_words := dedupFirst (splitWs (lowerStr query))
  let content_words := dedupFirst (splitWs (lowerStr content))
  if query_words.length = 0 then 0
  else
    let ratio : ℚ := (matchedWords query_words content_words : ℚ) / query_words.length
    let bonus : ℚ := (phraseHits query_words (lowerStr content) : ℚ) * (1/10)
    min 1 (ratio + bonus)

/-- Total occurrence count of the query tokens in the content tokens
(`_calculate_keyword_density`'s `keyword_count`). -/
def keywordCount (qws cws : List Str) : ℕ :=
  (qws.map (fun w => cws.count w)).sum

/-- `Reranker._calculate_keyword_density`. -/
def calculate_keyword_density (query content : Str) : ℚ :=
  let query_words := splitWs (lowerStr query)
  let content_words := splitWs (lowerStr content)
  if content_words.length = 0 then 0
  else
    min 1 ((keywordCount query_words content_words : ℚ) / content_words.length * 10)

/-- `Reranker._calculate_length_penalty`. -/
def calculate_length_penalty (content : Str) : ℚ :=
  let n := content.length
  if 100 ≤ n ∧ n ≤ 1000 then 1
  else if n < 50 then 3/10
  else if n > 2000 then 7/10
  else if n < 100 then 3/10 + ((n : ℚ) - 50) / 50 * (7/10)
  else 1 - ((n : ℚ) - 1000) / 1000 * (3/10)

/-- `Reranker._calculate_freshness`. -/
def calculate_freshness (md : PyVal) : ℚ :=
  if ¬ optTruthy (dictGet md "created_at".data) ∧ ¬ optTruthy (dictGet md "updated_at".data)
  then 1/2 else 8/10

/-- The `quality_weights` table of `_calculate_source_quality`
(`.get(source_type, 0.5)`). -/
def qualityWeight (st : Str) : ℚ :=
  if st = "official_doc".data then 1
  else if st = "tutorial".data then 9/10
  else if st = "blog".data then 7/10
  else if st = "forum".data then 1/2
  else if st = "user_generated".data then 3/10
  else 1/2

/-- `metadata.get(key, default)` for a string-valued key.  A present
non-string `source_type` is simply an unknown key of the weight table in
Python, which yields the same default weight, so it is folded into the
default. -/
def getStrD (md : PyVal) (k : Str) (d : Str) : Str :=
  match dictGet md k with
  | some (.pstr s) => s
  | _ => d

/-- `metadata.get(key, default)` for a numeric key.  Python booleans are
numbers (`True == 1`); other present non-numeric values would raise a
`TypeError` in the arithmetic that follows and are not modelled. -/
def getNumD (md : PyVal) (k : Str) (d : ℚ) : ℚ :=
  match dictGet md k with
  | some (.pnum q) => q
  | some (.pbool b) => if b then 1 else 0
  | _ => d

/-- `Reranker._calculate_source_quality`. -/
def calculate_source_quality (md : PyVal) : ℚ :=
  let source_type := getStrD md "source_type".data []
  let source_quality := getNumD md "source_quality".data (1/2)
  source_quality * qualityWeight source_type

/-- `Reranker._calculate_position_bonus`. -/
def calculate_position_bonus (md : PyVal) : ℚ :=
  let pos := getNumD md "position".data 0
  let total := getNumD md "total_positions".data 1
  if total ≤ 1 then 1 else 1 - pos / total

/-- Lines of a string (`re.MULTILINE` anchors `^` at line starts). -/
def linesOf (s : Str) : List Str := splitChar '\n' s

/-- One line matches `^\s*[-*+]\s` or `^\s*\d+\.\s`. -/
def lineHasListMarker (l : Str) : Bool :=
  let t := l.dropWhile Char.isWhitespace
  (match t with
   | c :: d :: _ => (c = '-' ∨ c = '*' ∨ c = '+') ∧ d.isWhitespace
   | _ => false) ||
  (let ds := t.takeWhile Char.isDigit
   ¬ ds.isEmpty &&
     (match t.drop ds.length with
      | '.' :: d :: _ => d.isWhitespace
      | _ => false))

/-- One line matches `^#{1,6}\s`. -/
def lineHasHeading (l : Str) : Bool :=
  let hs := (l.takeWhile (fun c => c = '#')).length
  1 ≤ hs && hs ≤ 6 &&
    (match l.drop hs with
     | d :: _ => d.isWhitespace
     | _ => false)

/-- `Reranker._calculate_format_quality`.  `len(content.split('\n\n')) > 1`
holds exactly when `"\n\n"` occurs in the content. -/
def calculate_format_quality (content : Str) : ℚ :=
  let s : ℚ := 1/2
  let s := s + (if containsSub content "```".data || containsSub content "<code>".data then 2/10 else 0)
  let s := s + (if (linesOf content).any lineHasListMarker then 1/10 else 0)
  let s := s + (if (linesOf content).any lineHasHeading then 1/10 else 0)
  let s := s + (if containsSub content ['\n', '\n'] then 1/10 else 0)
  min 1 s

/-- `Reranker._combine_scores`: fixed 0.3/0.7 blend. -/
def combine_scores (original_score rerank_score : ℚ) : ℚ :=
  original_score * (3/10) + rerank_score * (7/10)

/-- The weighted rule score computed in the loop body of
`_rule_based_rerank`. -/
def rule_score (query : Str) (doc : Doc) : ℚ :=
  calculate_exact_match query doc.content * w_exact_match +
  calculate_keyword_density query doc.content * w_keyword_density +
  calculate_length_penalty doc.content * w_length_penalty +
  calculate_freshness doc.metadata * w_freshness +
  calculate_source_quality doc.metadata * w_source_quality +
  calculate_position_bonus doc.metadata * w_position_bonus +
  calculate_format_quality doc.content * w_format_quality

/-- `Reranker._rule_based_rerank`. -/
def rule_based_rerank (query : Str) (documents : List Doc) (top_k : ℕ) :
    List RerankResult :=
  let results := documents.map (fun doc =>
    let rs := rule_score query doc
    { id := doc.id
      content := doc.content
      original_score := doc.score
      rerank_score := rs
      final_score := combine_scores doc.score rs
      source_file := doc.source_file
      knowledge_base_id := doc.knowledge_base_id
      metadata := doc.metadata
      rerank_reason := "rule_based".data : RerankResult })
  (sortDescBy RerankResult.final_score results).take top_k

/-- `Reranker._fallback_rerank` (the degraded path of `rerank`). -/
def fallback_rerank (documents : List Doc) (top_k : ℕ) : List RerankResult :=
  let results := documents.map (fun doc =>
    { id := doc.id
      content := doc.content
      original_score := doc.score
      rerank_score := doc.score
      final_score := doc.score
      source_file := doc.source_file
      knowledge_base_id := doc.knowledge_base_id
      metadata := doc.metadata
      rerank_reason := "fallback".data : RerankResult })
  (sortDescBy RerankResult.final_score results).take top_k

/-- The external cross-encoder scorer: a batched call that either returns a
list of scores or raises. -/
abbrev CEClient := List (Str × Str) → Except Unit (List ℚ)

/-- `Reranker._cross_encoder_rerank`: falls back to the rule-based path when
the client is absent or its call raises. -/
def cross_encoder_rerank (ce : Option CEClient) (query : Str)
    (documents : List Doc) (top_k : ℕ) : List RerankResult :=
  match ce with
  | none => rule_based_rerank query documents top_k
  | some c =>
    match c (documents.map (fun d => (query, d.content))) with
    | .error _ => rule_based_rerank query documents top_k
    | .ok scores =>
      let results := documents.enum.map (fun p =>
        let rerank_score := if p.1 < scores.length then scores.getD p.1 0 else 0
        { id := p.2.id
          content := p.2.content
          original_score := p.2.score
          rerank_score := rerank_score
          final_score := combine_scores p.2.score rerank_score
          source_file := p.2.source_file
          knowledge_base_id := p.2.knowledge_base_id
          metadata := p.2.metadata
          rerank_reason := "cross_encoder".data : RerankResult })
      (sortDescBy RerankResult.final_score results).take top_k

/-- `Reranker._hybrid_rerank`: rule-based pass over `2*top_k` candidates,
then in-place cross-encoder re-scoring of the first `top_k` results (the
list is *not* re-sorted after the update), returning `rule_results[:top_k]`. -/
def hybrid_rerank (ce : Option CEClient) (query : Str)
    (documents : List Doc) (top_k : ℕ) : List RerankResult :=
  let rule_results := rule_based_rerank query documents (top_k * 2)
  match ce with
  | none => rule_results.take top_k
  | some c =>
    if rule_results.isEmpty then rule_results.take top_k
    else
      match c ((rule_results.take top_k).map (fun r => (query, r.content))) with
      | .error _ => rule_results.take top_k
      | .ok scores =>
        (rule_results.take top_k).enum.map (fun p =>
          if p.1 < scores.length then
            let rr := (p.2.rerank_score + scores.getD p.1 0) / 2
            { p.2 with
              rerank_score := rr
              final_score := combine_scores p.2.original_score rr
              rerank_reason := "hybrid".data }
          else p.2)

/-- `Reranker.rerank`: dispatch on the configured strategy.  (The enclosing
`try/except` falls back to `_fallback_rerank`; the embedded bodies are total,
so that path is modelled by `fallback_rerank` directly.) -/
def rerank (ce : Option CEClient) (strategy : RerankStrategy) (query : Str)
    (documents : List Doc) (top_k : ℕ) : List RerankResult :=
  if documents.isEmpty then []
  else
    match strategy with
    | .cross_encoder => cross_encoder_rerank ce query documents top_k
    | .rule_based => rule_based_rerank query documents top_k
    | .hybrid => hybrid_rerank ce query documents top_k

end Reranker

end Reranker

section ClaimC1

/-- The two candidate documents of the claim-C1 scenario. -/
def c1doc1 : Doc := { id := "1".data, content := "Python安装教程".data, score := 8/10 }

/-- Second document of the claim-C1 scenario. -/
def c1doc2 : Doc := { id := "2".data, content := "普通文档".data, score := 9/10 }

/-- Rule score of the first C1 document. -/
theorem c1_rule_score_doc1 :
    Reranker.rule_score "python安装".data c1doc1 = 57/200 := by
  have hqw : dedupFirst (splitWs (lowerStr "python安装".data)) = ["python安装".data] := by decide
  have hm : Reranker.matchedWords ["python安装".data]
      (dedupFirst (splitWs (lowerStr "Python安装教程".data))) = 0 := by decide
  have hp : Reranker.phraseHits ["python安装".data] (lowerStr "Python安装教程".data) = 1 := by decide
  have hkc : Reranker.keywordCount (splitWs (lowerStr "python安装".data))
      (splitWs (lowerStr "Python安装教程".data)) = 0 := by decide
  have hcl : (splitWs (lowerStr "Python安装教程".data)).length = 1 := by decide
  have hlen : ("Python安装教程".data : Str).length = 10 := by decide
  have hfmt1 : (containsSub "Python安装教程".data "```".data ||
      containsSub "Python安装教程".data "<code>".data) = false := by decide
  have hfmt2 : (Reranker.linesOf "Python安装教程".data).any Reranker.lineHasListMarker = false := by decide
  have hfmt3 : (Reranker.linesOf "Python安装教程".data).any Reranker.lineHasHeading = false := by decide
  have hfmt4 : containsSub "Python安装教程".data ['\n', '\n'] = false := by decide
  simp only [Reranker.rule_score, c1doc1, Reranker.calculate_exact_match,
    Reranker.calculate_keyword_density, Reranker.calculate_length_penalty,
    Reranker.calculate_freshness, Reranker.calculate_source_quality,
    Reranker.calculate_position_bonus, Reranker.calculate_format_quality,
    Reranker.getStrD, Reranker.getNumD, Reranker.qualityWeight,
    dictGet, alookup, optTruthy, hqw, hm, hp, hkc, hcl, hlen, hfmt1, hfmt2, hfmt3, hfmt4,
    Reranker.w_exact_match, Reranker.w_keyword_density, Reranker.w_length_penalty,
    Reranker.w_freshness, Reranker.w_source_quality, Reranker.w_position_bonus,
    Reranker.w_format_quality]
  norm_num [List.cons_ne_nil]

/-- Rule score of the second C1 document. -/
theorem c1_rule_score_doc2 :
    Reranker.rule_score "python安装".data c1doc2 = 51/200 := by
  have hqw : dedupFirst (splitWs (lowerStr "python安装".data)) = ["python安装".data] := by decide
  have hm : Reranker.matchedWords ["python安装".data]
      (dedupFirst (splitWs (lowerStr "普通文档".data))) = 0 := by decide
  have hp : Reranker.phraseHits ["python安装".data] (lowerStr "普通文档".data) = 0 := by decide
  have hkc : Reranker.keywordCount (splitWs (lowerStr "python安装".data))
      (splitWs (lowerStr "普通文档".data)) = 0 := by decide
  have hcl : (splitWs (lowerStr "普通文档".data)).length = 1 := by decide
  have hlen : ("普通文档".data : Str).length = 4 := by decide
  have hfmt1 : (containsSub "普通文档".data "```".data ||
      containsSub "普通文档".data "<code>".data) = false := by decide
  have hfmt2 : (Reranker.linesOf "普通文档".data).any Reranker.lineHasListMarker = false := by decide
  have hfmt3 : (Reranker.linesOf "普通文档".data).any Reranker.lineHasHeading = false := by decide
  have hfmt4 : containsSub "普通文档".data ['\n', '\n'] = false := by decide
  simp only [Reranker.rule_score, c1doc2, Reranker.calculate_exact_match,
    Reranker.calculate_keyword_density, Reranker.calculate_length_penalty,
    Reranker.calculate_freshness, Reranker.calculate_source_quality,
    Reranker.calculate_position_bonus, Reranker.calculate_format_quality,
    Reranker.getStrD, Reranker.getNumD, Reranker.qualityWeight,
    dictGet, alookup, optTruthy, hqw, hm, hp, hkc, hcl, hlen, hfmt1, hfmt2, hfmt3, hfmt4,
    Reranker.w_exact_match, Reranker.w_keyword_density, Reranker.w_length_penalty,
    Reranker.w_freshness, Reranker.w_source_quality, Reranker.w_position_bonus,
    Reranker.w_format_quality]
  norm_num [List.cons_ne_nil]

/-- C1: with query "python安装" and candidates id=1 ("Python安装教程", score 0.8)
and id=2 ("普通文档", score 0.9), the rule-based rerank of the source code
returns id=2 *above* id=1 (final scores 0.4485 vs 0.4395): the exact-match
and keyword-density sub-scores do not dominate, contradicting the claim and
the repository's own test `test_rule_based_rerank`. -/
theorem C1_rule_rerank_ranks_id2_first :
    (Reranker.rule_based_rerank "python安装".data [c1doc1, c1doc2] 10).map RerankResult.id
      = ["2".data, "1".data] ∧
    (Reranker.rule_based_rerank "python安装".data [c1doc1, c1doc2] 10).map
        RerankResult.final_score = [897/2000, 879/2000] := by
  have r1 := c1_rule_score_doc1
  have r2 := c1_rule_score_doc2
  simp only [c1doc1, c1doc2] at r1 r2
  refine ⟨?_, ?_⟩ <;>
  · simp only [Reranker.rule_based_rerank, List.map, c1doc1, c1doc2, r1, r2,
      Reranker.combine_scores, sortDescBy, List.foldr]
    norm_num [insDesc]

end ClaimC1

section SortLemmas

/-- Membership in a stable descending insertion. -/
theorem mem_insDesc {α} (key : α → ℚ) (x : α) (l : List α) (a : α) :
    a ∈ insDesc key x l ↔ a = x ∨ a ∈ l := by
  induction l with
  | nil => simp [insDesc]
  | cons y ys ih =>
    by_cases h : key y ≤ key x
    · simp [insDesc, h]
    · simp [insDesc, h, ih]
      tauto

/-- Stable descending insertion preserves descending pairwise order. -/
theorem insDesc_pairwise {α} (key : α → ℚ) (x : α) (l : List α)
    (h : l.Pairwise (fun a b => key b ≤ key a)) :
    (insDesc key x l).Pairwise (fun a b => key b ≤ key a) := by
  induction l with
  | nil => simp [insDesc]
  | cons y ys ih =>
    rcases List.pairwise_cons.mp h with ⟨hy, hys⟩
    by_cases hc : key y ≤ key x
    · rw [insDesc, if_pos hc]
      refine List.pairwise_cons.mpr ⟨?_, h⟩
      intro b hb
      rcases List.mem_cons.mp hb with hb | hb
      · exact hb ▸ hc
      · exact le_trans (hy b hb) hc
    · rw [insDesc, if_neg hc]
      refine List.pairwise_cons.mpr ⟨?_, ih hys⟩
      intro b hb
      rcases (mem_insDesc key x ys b).mp hb with hb | hb
      · exact hb ▸ le_of_lt (lt_of_not_le hc)
      · exact hy b hb

/-- The stable descending sort is sorted (descending, pairwise). -/
theorem sortDescBy_pairwise {α} (key : α → ℚ) (l : List α) :
    (sortDescBy key l).Pairwise (fun a b => key b ≤ key a) := by
  induction l with
  | nil => simp [sortDescBy]
  | cons x xs ih => exact insDesc_pairwise key x (sortDescBy key xs) ih

/-- The stable descending sort preserves membership. -/
theorem mem_sortDescBy {α} (key : α → ℚ) (l : List α) (a : α) :
    a ∈ sortDescBy key l ↔ a ∈ l := by
  induction l with
  | nil => simp [sortDescBy]
  | cons x xs ih =>
    show a ∈ insDesc key x (sortDescBy key xs) ↔ _
    rw [mem_insDesc key x _ a]
    simp [ih]

end SortLemmas

section ClaimC4

/-- The returned list is sorted in descending `final_score` order. -/
def finalSortedDesc (l : List RerankResult) : Prop :=
  l.Pairwise (fun a b => b.final_score ≤ a.final_score)

/-- Every result of the rule-based path satisfies the fixed 0.3/0.7 blend. -/
theorem rule_based_blend (query : Str) (documents : List Doc) (top_k : ℕ) :
    ∀ r ∈ Reranker.rule_based_rerank query documents top_k,
      r.final_score = Reranker.combine_scores r.original_score r.rerank_score := by
  intro r hr
  have hr' := (mem_sortDescBy RerankResult.final_score _ r).mp (List.take_subset _ _ hr)
  rcases List.mem_map.mp hr' with ⟨doc, _, hdoc⟩
  subst hdoc
  rfl

/-- Every result of the fallback path satisfies the blend
(`rerank_score = original_score = final_score` there). -/
theorem fallback_blend (documents : List Doc) (top_k : ℕ) :
    ∀ r ∈ Reranker.fallback_rerank documents top_k,
      r.final_score = Reranker.combine_scores r.original_score r.rerank_score := by
  intro r hr
  have hr' := (mem_sortDescBy RerankResult.final_score _ r).mp (List.take_subset _ _ hr)
  rcases List.mem_map.mp hr' with ⟨doc, _, hdoc⟩
  subst hdoc
  show doc.score = Reranker.combine_scores doc.score doc.score
  rw [Reranker.combine_scores]
  ring

/-- Every result of the cross-encoder path satisfies the blend. -/
theorem cross_encoder_blend (ce : Option Reranker.CEClient) (query : Str)
    (documents : List Doc) (top_k : ℕ) :
    ∀ r ∈ Reranker.cross_encoder_rerank ce query documents top_k,
      r.final_score = Reranker.combine_scores r.original_score r.rerank_score := by
  intro r hr
  match hce : ce with
  | none =>
    rw [Reranker.cross_encoder_rerank] at hr
    exact rule_based_blend query documents top_k r hr
  | some c =>
    rw [Reranker.cross_encoder_rerank] at hr
    match hres : c (documents.map (fun d => (query, d.content))) with
    | .error e =>
      rw [hres] at hr
      exact rule_based_blend query documents top_k r hr
    | .ok scores =>
      rw [hres] at hr
      have hr' := (mem_sortDescBy RerankResult.final_score _ r).mp (List.take_subset _ _ hr)
      rcases List.mem_map.mp hr' with ⟨p, _, hp⟩
      subst hp
      rfl

/-- Every result of the hybrid path satisfies the blend. -/
theorem hybrid_blend (ce : Option Reranker.CEClient) (query : Str)
    (documents : List Doc) (top_k : ℕ) :
    ∀ r ∈ Reranker.hybrid_rerank ce query documents top_k,
      r.final_score = Reranker.combine_scores r.original_score r.rerank_score := by
  intro r hr
  have hrule := rule_based_blend query documents (top_k * 2)
  cases ce with
  | none =>
    simp only [Reranker.hybrid_rerank] at hr
    exact hrule r (List.take_subset _ _ hr)
  | some c =>
    simp only [Reranker.hybrid_rerank] at hr
    by_cases hemp : (Reranker.rule_based_rerank query documents (top_k * 2)).isEmpty
    · rw [if_pos hemp] at hr
      exact hrule r (List.take_subset _ _ hr)
    · rw [if_neg hemp] at hr
      cases hres : c (((Reranker.rule_based_rerank query documents (top_k * 2)).take top_k).map
          (fun r => (query, r.content))) with
      | error e =>
        rw [hres] at hr
        exact hrule r (List.take_subset _ _ hr)
      | ok scores =>
        rw [hres] at hr
        rcases List.mem_map.mp hr with ⟨p, hpmem, hp⟩
        subst hp
        by_cases hi : p.1 < scores.length
        · simp only [if_pos hi]
        · simp only [if_neg hi]
          have hpm : p.2 ∈ (Reranker.rule_based_rerank query documents (top_k * 2)).take top_k := by
            have h1 := List.mem_enum_iff_getElem?.mp hpmem
            exact List.getElem?_mem h1
          exact hrule p.2 (List.take_subset _ _ hpm)

end ClaimC4

section ClaimC4b

/-- Take of the descending sort is pairwise descending. -/
theorem take_sortDescBy_pairwise {α} (key : α → ℚ) (l : List α) (k : ℕ) :
    ((sortDescBy key l).take k).Pairwise (fun a b => key b ≤ key a) :=
  (sortDescBy_pairwise key l).sublist (List.take_sublist k _)

/-- The rule-based rerank output is sorted descending by final score. -/
theorem rule_based_sorted (query : Str) (documents : List Doc) (top_k : ℕ) :
    finalSortedDesc (Reranker.rule_based_rerank query documents top_k) :=
  take_sortDescBy_pairwise RerankResult.final_score _ top_k

/-- The fallback rerank output is sorted descending by final score. -/
theorem fallback_sorted (documents : List Doc) (top_k : ℕ) :
    finalSortedDesc (Reranker.fallback_rerank documents top_k) :=
  take_sortDescBy_pairwise RerankResult.final_score _ top_k

/-- The cross-encoder rerank output is sorted descending by final score. -/
theorem cross_encoder_sorted (ce : Option Reranker.CEClient) (query : Str)
    (documents : List Doc) (top_k : ℕ) :
    finalSortedDesc (Reranker.cross_encoder_rerank ce query documents top_k) := by
  cases ce with
  | none => exact rule_based_sorted query documents top_k
  | some c =>
    rw [Reranker.cross_encoder_rerank]
    cases c (documents.map (fun d => (query, d.content))) with
    | error e => exact rule_based_sorted query documents top_k
    | ok scores => exact take_sortDescBy_pairwise RerankResult.final_score _ top_k

/-- Dispatch of `rerank` for the rule-based strategy (definitional). -/
theorem rerank_rule_eq (ce : Option Reranker.CEClient) (query : Str)
    (documents : List Doc) (top_k : ℕ) :
    Reranker.rerank ce RerankStrategy.rule_based query documents top_k =
      if documents.isEmpty then [] else Reranker.rule_based_rerank query documents top_k := rfl

/-- Dispatch of `rerank` for the cross-encoder strategy (definitional). -/
theorem rerank_cross_eq (ce : Option Reranker.CEClient) (query : Str)
    (documents : List Doc) (top_k : ℕ) :
    Reranker.rerank ce RerankStrategy.cross_encoder query documents top_k =
      if documents.isEmpty then []
      else Reranker.cross_encoder_rerank ce query documents top_k := rfl

/-- Dispatch of `rerank` for the hybrid strategy (definitional). -/
theorem rerank_hybrid_eq (ce : Option Reranker.CEClient) (query : Str)
    (documents : List Doc) (top_k : ℕ) :
    Reranker.rerank ce RerankStrategy.hybrid query documents top_k =
      if documents.isEmpty then []
      else Reranker.hybrid_rerank ce query documents top_k := rfl

/-- The cross-encoder path returns at most `top_k` results. -/
theorem cross_encoder_length_le (ce : Option Reranker.CEClient) (query : Str)
    (documents : List Doc) (top_k : ℕ) :
    (Reranker.cross_encoder_rerank ce query documents top_k).length ≤ top_k := by
  cases ce with
  | none => exact List.length_take_le _ _
  | some c =>
    rw [Reranker.cross_encoder_rerank]
    cases c (documents.map (fun d => (query, d.content))) with
    | error e => exact List.length_take_le _ _
    | ok scores => exact List.length_take_le _ _

/-- The hybrid path returns at most `top_k` results. -/
theorem hybrid_length_le (ce : Option Reranker.CEClient) (query : Str)
    (documents : List Doc) (top_k : ℕ) :
    (Reranker.hybrid_rerank ce query documents top_k).length ≤ top_k := by
  cases ce with
  | none =>
    rw [Reranker.hybrid_rerank]
    exact List.length_take_le _ _
  | some c =>
    rw [Reranker.hybrid_rerank]
    by_cases hemp : (Reranker.rule_based_rerank query documents (top_k * 2)).isEmpty
    · rw [if_pos hemp]
      exact List.length_take_le _ _
    · rw [if_neg hemp]
      cases c (((Reranker.rule_based_rerank query documents (top_k * 2)).take top_k).map
          (fun r => (query, r.content))) with
      | error e => exact List.length_take_le _ _
      | ok scores =>
        rw [List.length_map, List.enum_length]
        exact List.length_take_le _ _

/-- Every strategy (and the fallback) returns at most `top_k` results. -/
theorem rerank_length_le (ce : Option Reranker.CEClient) (strategy : RerankStrategy)
    (query : Str) (documents : List Doc) (top_k : ℕ) :
    (Reranker.rerank ce strategy query documents top_k).length ≤ top_k := by
  by_cases hd : documents.isEmpty
  · cases strategy
    · rw [rerank_cross_eq, if_pos hd]
      exact Nat.zero_le _
    · rw [rerank_rule_eq, if_pos hd]
      exact Nat.zero_le _
    · rw [rerank_hybrid_eq, if_pos hd]
      exact Nat.zero_le _
  · cases strategy
    · rw [rerank_cross_eq, if_neg hd]
      exact cross_encoder_length_le ce query documents top_k
    · rw [rerank_rule_eq, if_neg hd]
      exact List.length_take_le _ _
    · rw [rerank_hybrid_eq, if_neg hd]
      exact hybrid_length_le ce query documents top_k

/-- Blend law for `rerank` under every strategy. -/
theorem rerank_blend (ce : Option Reranker.CEClient) (strategy : RerankStrategy)
    (query : Str) (documents : List Doc) (top_k : ℕ) :
    ∀ r ∈ Reranker.rerank ce strategy query documents top_k,
      r.final_score = Reranker.combine_scores r.original_score r.rerank_score := by
  intro r hr
  by_cases hd : documents.isEmpty
  · exfalso
    cases strategy
    · rw [rerank_cross_eq, if_pos hd] at hr
      exact List.not_mem_nil r hr
    · rw [rerank_rule_eq, if_pos hd] at hr
      exact List.not_mem_nil r hr
    · rw [rerank_hybrid_eq, if_pos hd] at hr
      exact List.not_mem_nil r hr
  · cases strategy
    · rw [rerank_cross_eq, if_neg hd] at hr
      exact cross_encoder_blend ce query documents top_k r hr
    · rw [rerank_rule_eq, if_neg hd] at hr
      exact rule_based_blend query documents top_k r hr
    · rw [rerank_hybrid_eq, if_neg hd] at hr
      exact hybrid_blend ce query documents top_k r hr

end ClaimC4b

section ClaimC4c

/-- C4 (amended): under every strategy — cross-encoder, rule-based, hybrid —
and on the fallback path, every returned `RerankResult` satisfies
`final_score = 0.3*original_score + 0.7*rerank_score` and at most `top_k`
items are returned; the cross-encoder, rule-based and fallback outputs are
additionally sorted in descending order of `final_score`.  (The hybrid path
is *not* always sorted: its cross-encoder re-scoring updates final scores
in place without re-sorting — see the counterexample.) -/
theorem C4_rerank_contract :
    ∀ (ce : Option Reranker.CEClient) (strategy : RerankStrategy) (query : Str)
      (documents : List Doc) (top_k : ℕ),
      (∀ r ∈ Reranker.rerank ce strategy query documents top_k,
          r.final_score = Reranker.combine_scores r.original_score r.rerank_score) ∧
      (Reranker.rerank ce strategy query documents top_k).length ≤ top_k ∧
      finalSortedDesc (Reranker.rerank ce RerankStrategy.cross_encoder query documents top_k) ∧
      finalSortedDesc (Reranker.rerank ce RerankStrategy.rule_based query documents top_k) ∧
      (∀ r ∈ Reranker.fallback_rerank documents top_k,
          r.final_score = Reranker.combine_scores r.original_score r.rerank_score) ∧
      (Reranker.fallback_rerank documents top_k).length ≤ top_k ∧
      finalSortedDesc (Reranker.fallback_rerank documents top_k) := by
  intro ce strategy query documents top_k
  refine ⟨rerank_blend ce strategy query documents top_k,
    rerank_length_le ce strategy query documents top_k, ?_, ?_,
    fallback_blend documents top_k, List.length_take_le _ _, fallback_sorted documents top_k⟩
  · rw [rerank_cross_eq]
    by_cases hd : documents.isEmpty
    · rw [if_pos hd]
      exact List.Pairwise.nil
    · rw [if_neg hd]
      exact cross_encoder_sorted ce query documents top_k
  · rw [rerank_rule_eq]
    by_cases hd : documents.isEmpty
    · rw [if_pos hd]
      exact List.Pairwise.nil
    · rw [if_neg hd]
      exact rule_based_sorted query documents top_k

/-- Cross-encoder stub used by the C4 counterexample: scores the first
candidate 0 and the second 1. -/
def c4ce : Reranker.CEClient := fun _ => .ok [0, 1]

/-- First C4 counterexample document. -/
def c4doc1 : Doc := { id := "1".data, content := "x".data, score := 1 }

/-- Second C4 counterexample document. -/
def c4doc2 : Doc := { id := "2".data, content := "x".data, score := 0 }

/-- Rule score of a one-character document against query "q". -/
theorem c4_rule_score (d : Doc) (hc : d.content = "x".data) (hm : d.metadata = .pdict []) :
    Reranker.rule_score "q".data d = 51/200 := by
  have hqw : dedupFirst (splitWs (lowerStr "q".data)) = ["q".data] := by decide
  have hmw : Reranker.matchedWords ["q".data] (dedupFirst (splitWs (lowerStr "x".data))) = 0 := by
    decide
  have hp : Reranker.phraseHits ["q".data] (lowerStr "x".data) = 0 := by decide
  have hkc : Reranker.keywordCount (splitWs (lowerStr "q".data)) (splitWs (lowerStr "x".data)) = 0 := by
    decide
  have hcl : (splitWs (lowerStr "x".data)).length = 1 := by decide
  have hlen : ("x".data : Str).length = 1 := by decide
  have hfmt1 : (containsSub "x".data "```".data || containsSub "x".data "<code>".data) = false := by
    decide
  have hfmt2 : (Reranker.linesOf "x".data).any Reranker.lineHasListMarker = false := by decide
  have hfmt3 : (Reranker.linesOf "x".data).any Reranker.lineHasHeading = false := by decide
  have hfmt4 : containsSub "x".data ['\n', '\n'] = false := by decide
  simp only [Reranker.rule_score, hc, hm, Reranker.calculate_exact_match,
    Reranker.calculate_keyword_density, Reranker.calculate_length_penalty,
    Reranker.calculate_freshness, Reranker.calculate_source_quality,
    Reranker.calculate_position_bonus, Reranker.calculate_format_quality,
    Reranker.getStrD, Reranker.getNumD, Reranker.qualityWeight,
    dictGet, alookup, optTruthy, hqw, hmw, hp, hkc, hcl, hlen, hfmt1, hfmt2, hfmt3, hfmt4,
    Reranker.w_exact_match, Reranker.w_keyword_density, Reranker.w_length_penalty,
    Reranker.w_freshness, Reranker.w_source_quality, Reranker.w_position_bonus,
    Reranker.w_format_quality]
  norm_num [List.cons_ne_nil]

/-- C4 (counterexample): a concrete hybrid rerank call whose output is *not*
sorted in descending order of `final_score`.  With documents
(id 1, "x", score 1) and (id 2, "x", score 0), query "q", `top_k = 2` and a
cross-encoder scoring the pair batch [0, 1], the returned final scores are
[1557/4000, 1757/4000], which is increasing. -/
theorem C4_hybrid_unsorted :
    ¬ finalSortedDesc
      (Reranker.rerank (some c4ce) RerankStrategy.hybrid "q".data [c4doc1, c4doc2] 2) := by
  have r1 := c4_rule_score c4doc1 (by rfl) (by rfl)
  have r2 := c4_rule_score c4doc2 (by rfl) (by rfl)
  simp only [c4doc1, c4doc2] at r1 r2
  have hr : Reranker.rule_based_rerank "q".data [c4doc1, c4doc2] (2 * 2) =
      [{ id := "1".data, content := "x".data, original_score := 1, rerank_score := 51/200,
         final_score := Reranker.combine_scores 1 (51/200), source_file := [],
         knowledge_base_id := [], metadata := .pdict [], rerank_reason := "rule_based".data },
       { id := "2".data, content := "x".data, original_score := 0, rerank_score := 51/200,
         final_score := Reranker.combine_scores 0 (51/200), source_file := [],
         knowledge_base_id := [], metadata := .pdict [], rerank_reason := "rule_based".data }] := by
    simp only [Reranker.rule_based_rerank, List.map, c4doc1, c4doc2, r1, r2,
      sortDescBy, List.foldr]
    norm_num [insDesc, Reranker.combine_scores]
  rw [rerank_hybrid_eq, if_neg (by decide), Reranker.hybrid_rerank, hr]
  simp only [c4ce, List.isEmpty_cons, List.take, List.map, List.enum, List.enumFrom]
  norm_num [finalSortedDesc, List.pairwise_cons, Reranker.combine_scores]

/-- C4 (witness): the amended contract applied at a concrete fallback input:
the single returned result has `final_score 5 = 0.3*5 + 0.7*5` and the
output length is at most 3. -/
theorem C4_rerank_contract_witness :
    (5 : ℚ) = Reranker.combine_scores 5 5 ∧
    (Reranker.fallback_rerank [{ id := "1".data, score := 5 : Doc }] 3).length ≤ 3 := by
  obtain ⟨-, -, -, -, hb, hlen, -⟩ :=
    C4_rerank_contract none RerankStrategy.rule_based []
      [{ id := "1".data, score := 5 : Doc }] 3
  have hlist : Reranker.fallback_rerank [{ id := "1".data, score := 5 : Doc }] 3 =
      [{ id := "1".data, content := [], original_score := 5, rerank_score := 5,
         final_score := 5, source_file := [], knowledge_base_id := [],
         metadata := .pdict [], rerank_reason := "fallback".data }] := by
    simp [Reranker.fallback_rerank, sortDescBy, insDesc]
  refine ⟨?_, hlen⟩
  have := hb _ (by rw [hlist]; exact List.mem_singleton.mpr rfl)
  simpa using this

end ClaimC4c

section HybridFusion

namespace HybridRetriever

/-- One bucket of the `doc_scores` defaultdict in the fusion functions of
`hybrid_retriever.py`. -/
structure BAcc where
  vscore : ℚ := 0
  kscore : ℚ := 0
  doc : Doc
deriving DecidableEq

/-- `bucket["vector_score"] = s; bucket["doc"] = d` as one update. -/
def BAcc.setV (a : BAcc) (sc : ℚ) (d : Doc) : BAcc := { a with vscore := sc, doc := d }

/-- `bucket["keyword_score"] = s`. -/
def BAcc.setK (a : BAcc) (sc : ℚ) : BAcc := { a with kscore := sc }

/-- `doc_scores[doc_id]["vector_score"] = s; doc_scores[doc_id]["doc"] = d`:
update-in-place for an existing key (Python dicts keep insertion position),
create-at-end otherwise (defaultdict). -/
def bupdV (m : List (Str × BAcc)) (id : Str) (sc : ℚ) (d : Doc) : List (Str × BAcc) :=
  match m with
  | [] => [(id, { vscore := sc, kscore := 0, doc := d })]
  | (k, a) :: t =>
    if k = id then (k, a.setV sc d) :: t
    else (k, a) :: bupdV t id sc d

/-- `doc_scores[doc_id]["keyword_score"] = s` followed by
`if doc is None: doc = d`: the keyword loop only sets the document when it
creates the entry. -/
def bupdK (m : List (Str × BAcc)) (id : Str) (sc : ℚ) (d : Doc) : List (Str × BAcc) :=
  match m with
  | [] => [(id, { vscore := 0, kscore := sc, doc := d })]
  | (k, a) :: t =>
    if k = id then (k, a.setK sc) :: t
    else (k, a) :: bupdK t id sc d

/-- The vector loop of `_borda_count_fusion`: each (0-based) position `i`
contributes a vector score of `max_rank - i`. -/
def bloopV (N : ℚ) : List (ℕ × Doc) → List (Str × BAcc) → List (Str × BAcc)
  | [], m => m
  | (i, d) :: t, m => bloopV N t (bupdV m d.id (N - i) d)

/-- The keyword loop of `_borda_count_fusion`. -/
def bloopK (N : ℚ) : List (ℕ × Doc) → List (Str × BAcc) → List (Str × BAcc)
  | [], m => m
  | (i, d) :: t, m => bloopK N t (bupdK m d.id (N - i) d)

/-- `HybridRetriever._borda_count_fusion` (weights already normalized by the
constructor). -/
def borda_count_fusion (wv wk : ℚ) (vector_results keyword_results : List Doc) : List Doc :=
  let max_rank : ℕ := max vector_results.length keyword_results.length
  let m := bloopK (max_rank : ℚ) keyword_results.enum
    (bloopV (max_rank : ℚ) vector_results.enum [])
  m.map (fun p =>
    { p.2.doc with
      fused_score := some (p.2.vscore * wv + p.2.kscore * wk)
      vector_score := some p.2.vscore
      keyword_score := some p.2.kscore })

/-- Keys of the fusion accumulator. -/
def bkeys (m : List (Str × BAcc)) : List Str := m.map Prod.fst

end HybridRetriever

end HybridFusion

section ClaimC2Lemmas

namespace HybridRetriever

/-- Updating an absent key appends a fresh vector entry. -/
theorem bupdV_not_mem (m : List (Str × BAcc)) (id : Str) (sc : ℚ) (d : Doc)
    (h : id ∉ bkeys m) :
    bupdV m id sc d = m ++ [(id, { vscore := sc, kscore := 0, doc := d })] := by
  induction m with
  | nil => rfl
  | cons p t ih =>
    have hne : ¬ p.1 = id := by
      intro he
      exact h (he ▸ List.mem_cons_self p.1 (bkeys t))
    have ht : id ∉ bkeys t := by
      intro hm
      exact h (List.mem_cons_of_mem p.1 hm)
    rw [show bupdV (p :: t) id sc d =
      (if p.1 = id then (p.1, p.2.setV sc d) :: t
       else p :: bupdV t id sc d) from by cases p; rfl]
    rw [if_neg hne, ih ht]
    rfl

/-- Updating an absent key appends a fresh keyword entry. -/
theorem bupdK_not_mem (m : List (Str × BAcc)) (id : Str) (sc : ℚ) (d : Doc)
    (h : id ∉ bkeys m) :
    bupdK m id sc d = m ++ [(id, { vscore := 0, kscore := sc, doc := d })] := by
  induction m with
  | nil => rfl
  | cons p t ih =>
    have hne : ¬ p.1 = id := by
      intro he
      exact h (he ▸ List.mem_cons_self p.1 (bkeys t))
    have ht : id ∉ bkeys t := by
      intro hm
      exact h (List.mem_cons_of_mem p.1 hm)
    rw [show bupdK (p :: t) id sc d =
      (if p.1 = id then (p.1, p.2.setK sc) :: t
       else p :: bupdK t id sc d) from by cases p; rfl]
    rw [if_neg hne, ih ht]
    rfl

/-- Mapping a key-preserving update over entries whose key is absent is the
identity. -/
theorem map_upd_id_of_not_mem (t : List (Str × BAcc)) (id : Str)
    (f : Str × BAcc → Str × BAcc) (h : id ∉ bkeys t) :
    t.map (fun p => if p.1 = id then f p else p) = t := by
  induction t with
  | nil => rfl
  | cons p t ih =>
    have hne : ¬ p.1 = id := by
      intro he
      exact h (he ▸ List.mem_cons_self p.1 (bkeys t))
    have ht : id ∉ bkeys t := by
      intro hm
      exact h (List.mem_cons_of_mem p.1 hm)
    simp only [List.map, if_neg hne, ih ht]

/-- Updating a present key (unique by `Nodup`) is a pointwise map. -/
theorem bupdK_mem_map (m : List (Str × BAcc)) (id : Str) (sc : ℚ) (d : Doc)
    (hnd : (bkeys m).Nodup) (h : id ∈ bkeys m) :
    bupdK m id sc d =
      m.map (fun p => if p.1 = id then (p.1, p.2.setK sc) else p) := by
  induction m with
  | nil => cases h
  | cons p t ih =>
    rw [show bupdK (p :: t) id sc d =
      (if p.1 = id then (p.1, p.2.setK sc) :: t
       else p :: bupdK t id sc d) from by cases p; rfl]
    by_cases he : p.1 = id
    · rw [if_pos he]
      have ht : id ∉ bkeys t := by
        have h1 : ¬ p.1 ∈ bkeys t := (List.nodup_cons.mp hnd).1
        rw [← he]
        exact h1
      simp only [List.map, if_pos he]
      rw [map_upd_id_of_not_mem t id _ ht]
    · rw [if_neg he]
      have h' : id ∈ bkeys t := by
        rcases List.mem_cons.mp h with h1 | h1
        · exact absurd h1.symm he
        · exact h1
      have hnd' : (bkeys t).Nodup := (List.nodup_cons.mp hnd).2
      simp only [List.map, if_neg he, ih hnd' h']

/-- Keys are preserved by the pointwise keyword update. -/
theorem bkeys_map_upd (m : List (Str × BAcc)) (id : Str) (sc : ℚ) :
    bkeys (m.map (fun p => if p.1 = id then (p.1, p.2.setK sc) else p))
      = bkeys m := by
  induction m with
  | nil => rfl
  | cons p t ih =>
    by_cases he : p.1 = id
    · simp only [bkeys, List.map, if_pos he] at ih ⊢
      rw [ih]
    · simp only [bkeys, List.map, if_neg he] at ih ⊢
      rw [ih]

end HybridRetriever

end ClaimC2Lemmas


section ClaimC2Loops

/-- 0-based index of the first occurrence of a string in a list (total:
returns the length when absent; only used under a membership hypothesis). -/
def idxOf (x : Str) : List Str → ℕ
  | [] => 0
  | y :: t => if y = x then 0 else idxOf x t + 1

/-- The second component of an `enumFrom` entry is a list member. -/
theorem snd_mem_of_mem_enumFrom {α} : ∀ {l : List α} {j : ℕ} {p : ℕ × α},
    p ∈ l.enumFrom j → p.2 ∈ l := by
  intro l
  induction l with
  | nil => intro j p hp; cases hp
  | cons x t ih =>
    intro j p hp
    rcases List.mem_cons.mp hp with hp | hp
    · rw [hp]
      exact List.mem_cons_self _ _
    · exact List.mem_cons_of_mem _ (ih hp)

/-- In an `enumFrom` of a list with duplicate-free ids, the recorded index
is `j` plus the position of the id. -/
theorem enumFrom_idx_eq {l : List Doc} : ∀ {j : ℕ} {p : ℕ × Doc},
    (l.map Doc.id).Nodup → p ∈ l.enumFrom j → p.1 = j + idxOf p.2.id (l.map Doc.id) := by
  induction l with
  | nil => intro j p _ hp; cases hp
  | cons d t ih =>
    intro j p hnd hp
    have hdt : d.id ∉ t.map Doc.id := (List.nodup_cons.mp hnd).1
    rcases List.mem_cons.mp hp with hp | hp
    · rw [hp]
      simp [idxOf]
    · have h1 := ih (List.nodup_cons.mp hnd).2 hp
      have hne : ¬ d.id = p.2.id := by
        intro he
        exact hdt (he ▸ List.mem_map_of_mem Doc.id (snd_mem_of_mem_enumFrom hp))
      rw [show (d :: t).map Doc.id = d.id :: t.map Doc.id from rfl, idxOf, if_neg hne]
      omega

namespace HybridRetriever

/-- Explicit form of the vector loop: starting from a map whose keys avoid
the (duplicate-free) vector ids, it appends one entry per vector result,
scored `N - i` at 0-based position `i`. -/
theorem bloopV_explicit (N : ℚ) (l : List Doc) : ∀ (j : ℕ) (m : List (Str × BAcc)),
    (l.map Doc.id).Nodup → (∀ k ∈ bkeys m, k ∉ l.map Doc.id) →
    bloopV N (l.enumFrom j) m
      = m ++ (l.enumFrom j).map (fun p =>
          (p.2.id, { vscore := N - p.1, kscore := 0, doc := p.2 })) := by
  induction l with
  | nil =>
    intro j m _ _
    simp [bloopV, List.enumFrom]
  | cons d t ih =>
    intro j m hnd hdisj
    have hnd' : (t.map Doc.id).Nodup := (List.nodup_cons.mp hnd).2
    have hdt : d.id ∉ t.map Doc.id := (List.nodup_cons.mp hnd).1
    have hdid : d.id ∉ bkeys m := by
      intro hk
      exact hdisj d.id hk (List.mem_cons_self _ _)
    rw [show (d :: t).enumFrom j = (j, d) :: t.enumFrom (j + 1) from rfl]
    rw [show bloopV N ((j, d) :: t.enumFrom (j + 1)) m
      = bloopV N (t.enumFrom (j + 1)) (bupdV m d.id (N - (j : ℕ)) d) from rfl]
    rw [bupdV_not_mem m d.id _ d hdid]
    rw [ih (j + 1) _ hnd' ?_]
    · simp [List.append_assoc]
    · intro k hk
      rw [show bkeys (m ++ [(d.id, ({ vscore := N - (j : ℕ), kscore := 0, doc := d } : HybridRetriever.BAcc))])
        = bkeys m ++ [d.id] from by rw [bkeys, bkeys, List.map_append]; rfl] at hk
      rcases List.mem_append.mp hk with hk1 | hk1
      · intro hmem
        exact hdisj k hk1 (List.mem_cons_of_mem _ hmem)
      · have hkd : k = d.id := List.mem_singleton.mp hk1
        rw [hkd]
        exact hdt

end HybridRetriever

end ClaimC2Loops


section ClaimC2LoopK

/-- `idxOf` at the head. -/
theorem idxOf_cons_self (x : Str) (t : List Str) : idxOf x (x :: t) = 0 := by
  simp [idxOf]

/-- `idxOf` past a non-matching head. -/
theorem idxOf_cons_ne (y x : Str) (t : List Str) (h : ¬ y = x) :
    idxOf x (y :: t) = idxOf x t + 1 := by
  simp [idxOf, h]

namespace HybridRetriever

/-- The pointwise keyword-score update performed by the keyword loop on the
entries already present in the accumulator. -/
def kUpdFn (N : ℚ) (j : ℕ) (ids : List Str) : Str × BAcc → Str × BAcc :=
  fun p => if p.1 ∈ ids then (p.1, p.2.setK (N - ((j + idxOf p.1 ids : ℕ) : ℚ))) else p

/-- Composing one head update with the tail's pointwise update equals the
whole list's pointwise update. -/
theorem kUpdFn_comp_head (N : ℚ) (j : ℕ) (d : Doc) (t : List Doc)
    (hdt : d.id ∉ t.map Doc.id) (p : Str × BAcc) :
    kUpdFn N (j + 1) (t.map Doc.id)
      (if p.1 = d.id then (p.1, p.2.setK (N - ((j : ℕ) : ℚ))) else p)
    = kUpdFn N j ((d :: t).map Doc.id) p := by
  have hcons : (d :: t).map Doc.id = d.id :: t.map Doc.id := rfl
  by_cases hpd : p.1 = d.id
  · rw [if_pos hpd]
    have h1 : ¬ p.1 ∈ t.map Doc.id := by
      rw [hpd]
      exact hdt
    have h2 : p.1 ∈ (d :: t).map Doc.id := by
      rw [hcons, hpd]
      exact List.mem_cons_self _ _
    have h3 : idxOf p.1 ((d :: t).map Doc.id) = 0 := by
      rw [hcons, hpd]
      exact idxOf_cons_self _ _
    rw [show kUpdFn N (j + 1) (t.map Doc.id) (p.1, p.2.setK (N - ((j : ℕ) : ℚ)))
        = if p.1 ∈ t.map Doc.id
          then (p.1, (p.2.setK (N - ((j : ℕ) : ℚ))).setK
            (N - ((j + 1 + idxOf p.1 (t.map Doc.id) : ℕ) : ℚ)))
          else (p.1, p.2.setK (N - ((j : ℕ) : ℚ))) from rfl]
    rw [if_neg h1, kUpdFn]
    show _ = if p.1 ∈ (d :: t).map Doc.id
      then (p.1, p.2.setK (N - ((j + idxOf p.1 ((d :: t).map Doc.id) : ℕ) : ℚ))) else p
    rw [if_pos h2, h3]
    norm_num
  · rw [if_neg hpd]
    rw [show kUpdFn N (j + 1) (t.map Doc.id) p
        = if p.1 ∈ t.map Doc.id
          then (p.1, p.2.setK (N - ((j + 1 + idxOf p.1 (t.map Doc.id) : ℕ) : ℚ)))
          else p from rfl]
    rw [kUpdFn]
    show _ = if p.1 ∈ (d :: t).map Doc.id
      then (p.1, p.2.setK (N - ((j + idxOf p.1 ((d :: t).map Doc.id) : ℕ) : ℚ))) else p
    have hmem2 : p.1 ∈ (d :: t).map Doc.id ↔ p.1 ∈ t.map Doc.id := by
      rw [hcons]
      constructor
      · intro hx
        rcases List.mem_cons.mp hx with hx | hx
        · exact absurd hx hpd
        · exact hx
      · exact fun hx => List.mem_cons_of_mem _ hx
    by_cases hpt : p.1 ∈ t.map Doc.id
    · rw [if_pos hpt, if_pos (hmem2.mpr hpt)]
      have hix : idxOf p.1 ((d :: t).map Doc.id) = idxOf p.1 (t.map Doc.id) + 1 := by
        rw [hcons]
        exact idxOf_cons_ne _ _ _ (fun he => hpd he.symm)
      rw [hix]
      have harith : ((j + 1 + idxOf p.1 (t.map Doc.id) : ℕ) : ℚ)
          = ((j + (idxOf p.1 (t.map Doc.id) + 1) : ℕ) : ℚ) := by
        push_cast
        ring
      rw [harith]
    · rw [if_neg hpt, if_neg (fun hx => hpt (hmem2.mp hx))]

end HybridRetriever

end ClaimC2LoopK

section ClaimC2LoopK2

namespace HybridRetriever

/-- Explicit form of the keyword loop over a map with duplicate-free keys:
present keys get their keyword score updated in place (keeping their stored
document); absent keys are appended in order with a fresh entry. -/
theorem bloopK_explicit (N : ℚ) (l : List Doc) : ∀ (j : ℕ) (m : List (Str × BAcc)),
    (l.map Doc.id).Nodup → (bkeys m).Nodup →
    bloopK N (l.enumFrom j) m
      = m.map (kUpdFn N j (l.map Doc.id))
        ++ ((l.enumFrom j).filter (fun p => decide (p.2.id ∉ bkeys m))).map
            (fun p => (p.2.id, { vscore := 0, kscore := N - p.1, doc := p.2 })) := by
  induction l with
  | nil =>
    intro j m _ _
    have hid : ∀ (mm : List (Str × BAcc)), mm.map (kUpdFn N j []) = mm := by
      intro mm
      induction mm with
      | nil => rfl
      | cons a b ihb => simp [kUpdFn, ihb]
    simp [bloopK, List.enumFrom, hid]
  | cons d t ih =>
    intro j m hnd hkeys
    have hnd' : (t.map Doc.id).Nodup := (List.nodup_cons.mp hnd).2
    have hdt : d.id ∉ t.map Doc.id := (List.nodup_cons.mp hnd).1
    rw [show (d :: t).enumFrom j = (j, d) :: t.enumFrom (j + 1) from rfl]
    rw [show bloopK N ((j, d) :: t.enumFrom (j + 1)) m
      = bloopK N (t.enumFrom (j + 1)) (bupdK m d.id (N - (j : ℕ)) d) from rfl]
    by_cases hmem : d.id ∈ bkeys m
    · rw [bupdK_mem_map m d.id _ d hkeys hmem]
      rw [ih (j + 1) _ hnd' (by rw [bkeys_map_upd]; exact hkeys)]
      congr 1
      · rw [List.map_map]
        refine List.map_congr_left fun p _ => ?_
        exact kUpdFn_comp_head N j d t hdt p
      · rw [bkeys_map_upd]
        rw [show ((j, d) :: t.enumFrom (j + 1)).filter (fun p => decide (p.2.id ∉ bkeys m))
            = (t.enumFrom (j + 1)).filter (fun p => decide (p.2.id ∉ bkeys m)) from by
            rw [List.filter_cons]
            simp [hmem]]
    · rw [bupdK_not_mem m d.id _ d hmem]
      have hbk : bkeys (m ++ [(d.id, ({ vscore := 0, kscore := N - ((j : ℕ) : ℚ), doc := d } : BAcc))]) = bkeys m ++ [d.id] := by
        rw [bkeys, bkeys, List.map_append]
        rfl
      have hkeys' : (bkeys (m ++ [(d.id, ({ vscore := 0, kscore := N - ((j : ℕ) : ℚ), doc := d } : BAcc))])).Nodup := by
        rw [hbk, List.nodup_append]
        refine ⟨hkeys, List.nodup_singleton _, ?_⟩
        intro k hk hk2
        have hkd : k = d.id := List.mem_singleton.mp hk2
        exact hmem (hkd ▸ hk)
      rw [ih (j + 1) _ hnd' hkeys']
      rw [List.map_append]
      have hnd1 : [(d.id, ({ vscore := 0, kscore := N - ((j : ℕ) : ℚ), doc := d } : BAcc))].map (kUpdFn N (j + 1) (t.map Doc.id)) = [(d.id, ({ vscore := 0, kscore := N - ((j : ℕ) : ℚ), doc := d } : BAcc))] := by
        simp [kUpdFn, hdt]
      rw [hnd1]
      have hmapm : m.map (kUpdFn N (j + 1) (t.map Doc.id))
          = m.map (kUpdFn N j ((d :: t).map Doc.id)) := by
        refine List.map_congr_left fun p hp => ?_
        have hpd : ¬ p.1 = d.id := by
          intro he
          exact hmem (he ▸ List.mem_map_of_mem Prod.fst hp)
        have h1 := kUpdFn_comp_head N j d t hdt p
        rw [if_neg hpd] at h1
        exact h1
      rw [hmapm]
      have hfil : (t.enumFrom (j + 1)).filter (fun p => decide (p.2.id ∉ bkeys (m ++ [(d.id, ({ vscore := 0, kscore := N - ((j : ℕ) : ℚ), doc := d } : BAcc))]))) = (t.enumFrom (j + 1)).filter (fun p => decide (p.2.id ∉ bkeys m)) := by
        refine List.filter_congr fun p hp => ?_
        have hpt : p.2 ∈ t := snd_mem_of_mem_enumFrom hp
        have hpd : ¬ p.2.id = d.id := by
          intro he
          exact hdt (he ▸ List.mem_map_of_mem Doc.id hpt)
        have hiff : (p.2.id ∈ bkeys (m ++ [(d.id, ({ vscore := 0, kscore := N - ((j : ℕ) : ℚ), doc := d } : BAcc))])) ↔ p.2.id ∈ bkeys m := by
          rw [hbk]
          constructor
          · intro hx
            rcases List.mem_append.mp hx with hx | hx
            · exact hx
            · exact absurd (List.mem_singleton.mp hx) hpd
          · exact fun hx => List.mem_append.mpr (Or.inl hx)
        simp [hiff]
      rw [hfil]
      rw [show ((j, d) :: t.enumFrom (j + 1)).filter (fun p => decide (p.2.id ∉ bkeys m))
          = (j, d) :: (t.enumFrom (j + 1)).filter (fun p => decide (p.2.id ∉ bkeys m)) from by
          rw [List.filter_cons]
          simp [hmem]]
      rw [List.append_assoc]
      rfl

end HybridRetriever

end ClaimC2LoopK2

section ClaimC2Main

/-- `enumFrom` then projecting the element through `f` forgets the indices. -/
theorem enumFrom_map_snd_comp {α β} (f : α → β) (l : List α) : ∀ (j : ℕ),
    (l.enumFrom j).map (fun p => f p.2) = l.map f := by
  induction l with
  | nil => intro j; rfl
  | cons x t ih =>
    intro j
    show (f x) :: (t.enumFrom (j + 1)).map (fun p => f p.2) = f x :: t.map f
    rw [ih (j + 1)]

/-- 1-based rank of a string in a list of ids (`none` when absent). -/
def rank1In (ids : List Str) (x : Str) : Option ℕ :=
  if x ∈ ids then some (idxOf x ids + 1) else none

/-- The fused Borda score as the claim's amended formula states it:
`w_v*(N - rank_v + 1) + w_k*(N - rank_k + 1)`, an absent side contributing
0. -/
def bordaAmendedScore (wv wk : ℚ) (N : ℕ) (rv rk : Option ℕ) : ℚ :=
  (match rv with
   | some r => wv * ((N : ℚ) - r + 1)
   | none => 0) +
  (match rk with
   | some r => wk * ((N : ℚ) - r + 1)
   | none => 0)

/-- The fused Borda score exactly as the claim states it (modelled from the
spec's words, for comparison): `w_v*(N - rank_v) + w_k*(N - rank_k)` with
1-based ranks, an absent side contributing 0. -/
def bordaClaimedScore (wv wk : ℚ) (N : ℕ) (rv rk : Option ℕ) : ℚ :=
  (match rv with
   | some r => wv * ((N : ℚ) - r)
   | none => 0) +
  (match rk with
   | some r => wk * ((N : ℚ) - r)
   | none => 0)

/-- C2 (amended): for every pair of result lists with duplicate-free ids,
Borda-count fusion assigns each returned document the fused score
`w_v*(N - rank_v + 1) + w_k*(N - rank_k + 1)` — one more per side than the
claimed `w_v*(N - rank_v) + w_k*(N - rank_k)`, because the code scores
`max_rank - i` with a 0-based `i` — where rank is the 1-based position in
the source list, `N = max(len(vector_results), len(keyword_results))`, and
a side in which the document is absent contributes 0. -/
theorem C2_borda_fused_score (wv wk : ℚ) (vr kr : List Doc)
    (hv : (vr.map Doc.id).Nodup) (hk : (kr.map Doc.id).Nodup) :
    ∀ e ∈ HybridRetriever.borda_count_fusion wv wk vr kr,
      e.fused_score = some (bordaAmendedScore wv wk (max vr.length kr.length)
        (rank1In (vr.map Doc.id) e.id) (rank1In (kr.map Doc.id) e.id)) := by
  intro e he
  simp only [HybridRetriever.borda_count_fusion, List.enum] at he
  rw [HybridRetriever.bloopV_explicit _ _ 0 []
    hv (fun k hk1 => absurd hk1 (List.not_mem_nil k))] at he
  rw [List.nil_append] at he
  have hbk : HybridRetriever.bkeys ((vr.enumFrom 0).map (fun p =>
      (p.2.id, ({ vscore := ((max vr.length kr.length : ℕ) : ℚ) - p.1, kscore := 0, doc := p.2 } : HybridRetriever.BAcc)))) = vr.map Doc.id := by
    rw [HybridRetriever.bkeys, List.map_map]
    exact enumFrom_map_snd_comp Doc.id vr 0
  rw [HybridRetriever.bloopK_explicit _ _ 0 _ hk (by rw [hbk]; exact hv)] at he
  rcases List.mem_map.mp he with ⟨q, hq, hqe⟩
  rcases List.mem_append.mp hq with hq | hq
  · rw [List.map_map] at hq
    rcases List.mem_map.mp hq with ⟨p, hp, hpq⟩
    have hsnd : p.2 ∈ vr := snd_mem_of_mem_enumFrom hp
    have hpv : p.2.id ∈ vr.map Doc.id := List.mem_map_of_mem Doc.id hsnd
    have hidv : p.1 = idxOf p.2.id (vr.map Doc.id) := by
      have h1 := enumFrom_idx_eq hv hp
      omega
    by_cases hkmem : p.2.id ∈ kr.map Doc.id
    · have hq2 : q = (p.2.id, ({ vscore := ((max vr.length kr.length : ℕ) : ℚ) - p.1, kscore := ((max vr.length kr.length : ℕ) : ℚ) - ((0 + idxOf p.2.id (kr.map Doc.id) : ℕ) : ℚ), doc := p.2 } : HybridRetriever.BAcc)) := by
        rw [← hpq]
        show HybridRetriever.kUpdFn _ 0 (kr.map Doc.id) _ = _
        rw [HybridRetriever.kUpdFn]
        rw [if_pos hkmem]
        rfl
      rw [← hqe, hq2, rank1In, rank1In, if_pos hpv, if_pos hkmem]
      show some _ = _
      rw [bordaAmendedScore]
      congr 1
      rw [hidv]
      push_cast
      ring
    · have hq2 : q = (p.2.id, ({ vscore := ((max vr.length kr.length : ℕ) : ℚ) - p.1, kscore := 0, doc := p.2 } : HybridRetriever.BAcc)) := by
        rw [← hpq]
        show HybridRetriever.kUpdFn _ 0 (kr.map Doc.id) _ = _
        rw [HybridRetriever.kUpdFn]
        rw [if_neg hkmem]
      rw [← hqe, hq2, rank1In, rank1In, if_pos hpv, if_neg hkmem]
      show some _ = _
      rw [bordaAmendedScore]
      congr 1
      rw [hidv]
      push_cast
      ring
  · rcases List.mem_map.mp hq with ⟨p, hpf, hpq⟩
    have hpe : p ∈ kr.enumFrom 0 := List.mem_of_mem_filter hpf
    have hsnd : p.2 ∈ kr := snd_mem_of_mem_enumFrom hpe
    have hkm : p.2.id ∈ kr.map Doc.id := List.mem_map_of_mem Doc.id hsnd
    have hnv : ¬ p.2.id ∈ vr.map Doc.id := by
      have h1 := List.of_mem_filter hpf
      rw [hbk] at h1
      simpa using h1
    have hidk : p.1 = idxOf p.2.id (kr.map Doc.id) := by
      have h1 := enumFrom_idx_eq hk hpe
      omega
    rw [← hqe, ← hpq, rank1In, rank1In, if_neg hnv, if_pos hkm]
    show some _ = _
    rw [bordaAmendedScore]
    congr 1
    rw [hidk]
    push_cast
    ring

end ClaimC2Main

section ClaimC2Cex

/-- First C2 counterexample document (vector side only). -/
def c2d1 : Doc := { id := "1".data, content := "a".data, score := 1/2 }

/-- Second C2 counterexample document (keyword side only). -/
def c2d2 : Doc := { id := "2".data, content := "b".data, score := 1/2 }

/-- C2 (counterexample): with `vector_results = [id 1]`,
`keyword_results = [id 2]` and the default normalized weights 0.7/0.3, the
code gives id 1 the fused score 0.7, while the claim's formula
`w_v*(N - rank_v) + w_k*(N - rank_k)` (N = 1, rank_v = 1, absent keyword
side 0) predicts 0. -/
theorem C2_borda_claim_false :
    (HybridRetriever.borda_count_fusion (7/10) (3/10) [c2d1] [c2d2]).map Doc.fused_score
      = [some (7/10), some (3/10)] ∧
    bordaClaimedScore (7/10) (3/10) (max [c2d1].length [c2d2].length)
      (rank1In ([c2d1].map Doc.id) c2d1.id) (rank1In ([c2d2].map Doc.id) c2d1.id) = 0 ∧
    ¬ ((7 : ℚ)/10 = 0) := by
  have hne : ¬ (("1".data : Str) = "2".data) := by decide
  have hne2 : ¬ (("2".data : Str) = "1".data) := by decide
  refine ⟨?_, ?_, by norm_num⟩
  · simp only [HybridRetriever.borda_count_fusion, List.enum, List.enumFrom,
      HybridRetriever.bloopV, HybridRetriever.bloopK, HybridRetriever.bupdV,
      HybridRetriever.bupdK, c2d1, c2d2, List.map]
    norm_num [hne2]
  · simp only [c2d1, c2d2, rank1In, List.map, idxOf, bordaClaimedScore]
    norm_num [hne]

/-- Witness document for the C2 amended theorem. -/
def c2wdoc : Doc := { id := "1".data, content := "a".data, score := 1 }

/-- C2 (witness): the amended formula applied at `vector_results = [id 1]`,
`keyword_results = []`, weights 2 and 3: the fused score is
`2*(1 - 1 + 1) + 0 = 2`. -/
theorem C2_borda_fused_score_witness :
    (some (2 : ℚ) : Option ℚ)
      = some (bordaAmendedScore 2 3 (max [c2wdoc].length ([] : List Doc).length)
          (rank1In ([c2wdoc].map Doc.id) "1".data)
          (rank1In (([] : List Doc).map Doc.id) "1".data)) := by
  have h := C2_borda_fused_score 2 3 [c2wdoc] [] (by decide) (by decide)
  have hlist : HybridRetriever.borda_count_fusion 2 3 [c2wdoc] []
      = [{ c2wdoc with fused_score := some 2, vector_score := some 1, keyword_score := some 0 }] := by
    simp only [HybridRetriever.borda_count_fusion, List.enum, List.enumFrom,
      HybridRetriever.bloopV, HybridRetriever.bloopK, HybridRetriever.bupdV,
      HybridRetriever.bupdK, c2wdoc, List.map]
    norm_num
  have h2 := h _ (by rw [hlist]; exact List.mem_singleton.mpr rfl)
  simpa [c2wdoc] using h2

end ClaimC2Cex

section ClaimC3

namespace MultiQueryExpander

/-- The `seen`-set loop of `MultiQueryExpander._deduplicate_queries`:
a query is kept when its lowercased, stripped form is new. -/
def dedupAux : List Str → List Str → List Str
  | [], _ => []
  | q :: t, seen =>
    if stripWs (lowerStr q) ∈ seen then dedupAux t seen
    else q :: dedupAux t (stripWs (lowerStr q) :: seen)

/-- `MultiQueryExpander._deduplicate_queries`. -/
def deduplicate_queries (queries : List Str) : List Str := dedupAux queries []

/-- `MultiQueryExpander.expand_query`, lines 52–80: the strategy dispatch
(synonyms / paraphrase / concept / question / hybrid) produces some list of
candidate strings, abstracted here as the `expansions` parameter — the
claim quantifies over every strategy, and each strategy returns *some*
string list (the `except` fallback is the special case `expansions = []`).
The embedded part is the post-processing of the source:
`[query] + expansions`, deduplication, and the cap at
`expansion_count + 1`. -/
def expand_query (query : Str) (expansions : List Str) (expansion_count : ℕ) : List Str :=
  (deduplicate_queries (query :: expansions)).take (expansion_count + 1)

/-- Everything the dedup loop emits has an unseen normalization key. -/
theorem dedupAux_key_not_seen : ∀ (t : List Str) (seen : List Str) (x : Str),
    x ∈ dedupAux t seen → stripWs (lowerStr x) ∉ seen := by
  intro t
  induction t with
  | nil => intro seen x hx; cases hx
  | cons q t ih =>
    intro seen x hx
    rw [dedupAux] at hx
    by_cases hq : stripWs (lowerStr q) ∈ seen
    · rw [if_pos hq] at hx
      exact ih seen x hx
    · rw [if_neg hq] at hx
      rcases List.mem_cons.mp hx with hx | hx
      · rw [hx]
        exact hq
      · intro hmem
        exact ih _ x hx (List.mem_cons_of_mem _ hmem)

/-- The dedup loop output is pairwise distinct under the normalization
key. -/
theorem dedupAux_pairwise : ∀ (t : List Str) (seen : List Str),
    (dedupAux t seen).Pairwise (fun a b => stripWs (lowerStr a) ≠ stripWs (lowerStr b)) := by
  intro t
  induction t with
  | nil => intro seen; exact List.Pairwise.nil
  | cons q t ih =>
    intro seen
    rw [dedupAux]
    by_cases hq : stripWs (lowerStr q) ∈ seen
    · rw [if_pos hq]
      exact ih seen
    · rw [if_neg hq]
      refine List.pairwise_cons.mpr ⟨?_, ih _⟩
      intro b hb hkey
      exact dedupAux_key_not_seen t _ b hb (hkey ▸ List.mem_cons_self _ _)

/-- The dedup loop output is a sublist of its input (first-occurrence order
is preserved). -/
theorem dedupAux_sublist : ∀ (t : List Str) (seen : List Str),
    (dedupAux t seen).Sublist t := by
  intro t
  induction t with
  | nil => intro seen; exact List.Sublist.refl []
  | cons q t ih =>
    intro seen
    rw [dedupAux]
    by_cases hq : stripWs (lowerStr q) ∈ seen
    · rw [if_pos hq]
      exact List.Sublist.cons q (ih seen)
    · rw [if_neg hq]
      exact List.Sublist.cons₂ q (ih _)

end MultiQueryExpander

/-- C3: for every query, every strategy's expansion list, and every
configured `expansion_count = N`, `expand_query` returns between 1 and
`N + 1` strings that are pairwise distinct after lowercasing and whitespace
stripping, the first of which is the input query, in first-occurrence order
(a sublist of `[query] + expansions`). -/
theorem C3_expand_query_contract :
    ∀ (query : Str) (expansions : List Str) (N : ℕ),
      1 ≤ (MultiQueryExpander.expand_query query expansions N).length ∧
      (MultiQueryExpander.expand_query query expansions N).length ≤ N + 1 ∧
      (MultiQueryExpander.expand_query query expansions N).head? = some query ∧
      (MultiQueryExpander.expand_query query expansions N).Pairwise
        (fun a b => stripWs (lowerStr a) ≠ stripWs (lowerStr b)) ∧
      (MultiQueryExpander.expand_query query expansions N).Sublist (query :: expansions) := by
  intro query expansions N
  have hded : MultiQueryExpander.deduplicate_queries (query :: expansions)
      = query :: MultiQueryExpander.dedupAux expansions [stripWs (lowerStr query)] := by
    rw [MultiQueryExpander.deduplicate_queries, MultiQueryExpander.dedupAux,
      if_neg (List.not_mem_nil _)]
  refine ⟨?_, List.length_take_le _ _, ?_, ?_, ?_⟩
  · rw [MultiQueryExpander.expand_query, hded]
    rw [List.take_cons (Nat.succ_pos N)]
    exact Nat.succ_le_succ (Nat.zero_le _)
  · rw [MultiQueryExpander.expand_query, hded, List.take_cons (Nat.succ_pos N)]
    rfl
  · exact (MultiQueryExpander.dedupAux_pairwise _ []).sublist (List.take_sublist _ _)
  · exact ((List.take_sublist _ _).trans (MultiQueryExpander.dedupAux_sublist _ []))

end ClaimC3

section ClaimC5

namespace MetadataFilter

/-- `FilterOperator` enum from `metadata_filter.py`. -/
inductive FilterOperator where
  | equals
  | not_equals
  | contains
  | not_contains
  | gt
  | lt
  | gte
  | lte
  | in_list
  | not_in
  | exists_op
  | not_exists
  | regex
  | date_range
deriving DecidableEq

/-- `FilterCondition` from `metadata_filter.py`. -/
structure FilterCondition where
  field : Str
  operator : FilterOperator
  value : PyVal

/-- External primitives used by the filter: `re.search` (with IGNORECASE),
`float(...)` (`none` = `ValueError`), `datetime.fromisoformat` (`none` =
parse error; timestamps as rationals), and the `datetime.now() -
timedelta(days=30)` cutoff of the `recent_docs` filter, fixed per call. -/
structure PyEnv where
  reSearch : Str → Str → Bool
  parseFloat : Str → Option ℚ
  parseDate : Str → Option ℚ
  cutoff30 : ℚ

/-- The dot-path walk of `MetadataFilter._get_nested_field`:
returns `None` (`pnone`) for a missing or non-dict step. -/
def nestedWalk : List Str → PyVal → PyVal
  | [], v => v
  | k :: t, v =>
    match v with
    | .pdict l =>
      match alookup l k with
      | some v2 => nestedWalk t v2
      | none => .pnone
    | _ => .pnone

/-- `MetadataFilter._get_nested_field`. -/
def get_nested_field (metadata : PyVal) (field_path : Str) : PyVal :=
  nestedWalk (splitChar '.' field_path) metadata

/-- Numeric view of a value for `_compare_values`: numbers as themselves,
booleans as 0/1 (Python bools are ints), strings via `float(...)`;
everything else raises a `TypeError` in the comparison, which the caller
turns into `False` (`none` here). -/
def toNumQ (env : PyEnv) : PyVal → Option ℚ
  | .pnum q => some q
  | .pbool b => some (if b then 1 else 0)
  | .pstr s => env.parseFloat s
  | _ => none

/-- Comparison operators handled by `_compare_values`. -/
inductive CmpOp where
  | gt
  | lt
  | gte
  | lte

/-- `MetadataFilter._compare_values`: `False` on conversion or type
errors. -/
def compare_values (env : PyEnv) (fv cv : PyVal) (op : CmpOp) : Bool :=
  match toNumQ env fv, toNumQ env cv with
  | some a, some b =>
    match op with
    | .gt => decide (a > b)
    | .lt => decide (a < b)
    | .gte => decide (a ≥ b)
    | .lte => decide (a ≤ b)
  | _, _ => false

/-- Python `x in l` for a list of dynamic values. -/
def pyIn (x : PyVal) (l : List PyVal) : Bool := l.any (fun v => pyEq x v)

/-- `MetadataFilter._evaluate_date_range`: `False` on falsy values, parse
failures, or non-string bounds (the `except` branch). -/
def evaluate_date_range (env : PyEnv) (fv dr : PyVal) : Bool :=
  if ¬ pyTruthy fv then false
  else
    match fv with
    | .pstr s =>
      match env.parseDate s with
      | none => false
      | some d =>
        match dr with
        | .pdict l =>
          (match alookup l "start".data with
           | none => true
           | some (.pstr ss) =>
             match env.parseDate ss with
             | some sd => decide (d ≥ sd)
             | none => false
           | some _ => false) &&
          (match alookup l "end".data with
           | none => true
           | some (.pstr es) =>
             match env.parseDate es with
             | some ed => decide (d ≤ ed)
             | none => false
           | some _ => false)
        | _ => false
    | _ => false

/-- `MetadataFilter._evaluate_condition` (its `try/except` returns `True`
only for errors already folded into the branches below; the unknown-operator
branch is unreachable for the closed enum). -/
def evaluate_condition (env : PyEnv) (fv : PyVal) (c : FilterCondition) : Bool :=
  match c.operator with
  | .equals => pyEq fv c.value
  | .not_equals => ! pyEq fv c.value
  | .contains =>
    match fv with
    | .pstr s =>
      match c.value with
      | .pstr v => containsSub (lowerStr s) (lowerStr v)
      | _ => false
    | .plist l => pyIn c.value l
    | _ => false
  | .not_contains =>
    match fv with
    | .pstr s =>
      match c.value with
      | .pstr v => ! containsSub (lowerStr s) (lowerStr v)
      | _ => true
    | .plist l => ! pyIn c.value l
    | _ => true
  | .gt => compare_values env fv c.value .gt
  | .lt => compare_values env fv c.value .lt
  | .gte => compare_values env fv c.value .gte
  | .lte => compare_values env fv c.value .lte
  | .in_list =>
    match c.value with
    | .plist l => pyIn fv l
    | _ => false
  | .not_in =>
    match c.value with
    | .plist l => ! pyIn fv l
    | _ => true
  | .exists_op =>
    match fv with
    | .pnone => false
    | _ => true
  | .not_exists =>
    match fv with
    | .pnone => true
    | _ => false
  | .regex =>
    match fv with
    | .pstr s =>
      match c.value with
      | .pstr pat => env.reSearch pat s
      | _ => false
    | _ => false
  | .date_range => evaluate_date_range env fv c.value

/-- The `metadata` dict of a document; a non-dict value makes every
`metadata.get(...)` raise (`error`). -/
def metaDict (doc : Doc) : Except Unit (List (Str × PyVal)) :=
  match doc.metadata with
  | .pdict l => .ok l
  | _ => .error ()

/-- `_filter_recent_documents` as a per-document predicate: keep on a
missing/falsy `created_at`, on a parse failure, or on a non-string value
(whose comparison raises inside the inner `try`, which keeps the
document). -/
def recentPred (env : PyEnv) (doc : Doc) : Except Unit Bool :=
  (metaDict doc).map (fun l =>
    match alookup l "created_at".data with
    | none => true
    | some v =>
      if ¬ pyTruthy v then true
      else
        match v with
        | .pstr s =>
          match env.parseDate s with
          | some d2 => decide (d2 ≥ env.cutoff30)
          | none => true
        | _ => true)

/-- `_filter_high_quality`: keep iff `quality_score >= 0.7` (default 0.5);
a present non-numeric score raises a `TypeError` that propagates to
`filter_documents`. -/
def highQualityPred (doc : Doc) : Except Unit Bool :=
  match metaDict doc with
  | .error e => .error e
  | .ok l =>
    match alookup l "quality_score".data with
    | none => .ok (decide ((1 : ℚ)/2 ≥ 7/10))
    | some (.pnum q) => .ok (decide (q ≥ 7/10))
    | some (.pbool b) => .ok (decide ((if b then (1 : ℚ) else 0) ≥ 7/10))
    | some _ => .error ()

/-- `_filter_official_sources`: keep iff `source_type` equals one of the
official types (the default `""` does not). -/
def officialPred (doc : Doc) : Except Unit Bool :=
  (metaDict doc).map (fun l =>
    match alookup l "source_type".data with
    | none => false
    | some v =>
      pyEq v (.pstr "official_doc".data) || pyEq v (.pstr "documentation".data) ||
        pyEq v (.pstr "api_doc".data))

/-- `_filter_code_documents`: keep iff the content has a code marker. -/
def codeDocsPred (doc : Doc) : Except Unit Bool :=
  .ok (containsSub doc.content "```".data || containsSub doc.content "<code>".data)

/-- `_filter_tutorial_documents`: keep iff the title or content contains a
tutorial keyword (case-insensitively; the source lists "步骤" twice). -/
def tutorialPred (doc : Doc) : Except Unit Bool :=
  .ok ((["教程".data, "tutorial".data, "guide".data, "how to".data,
      "步骤".data, "步骤".data] : List Str).any (fun kw =>
    containsSub (lowerStr doc.title) (lowerStr kw) ||
      containsSub (lowerStr doc.content) (lowerStr kw)))

/-- `_filter_exclude_archived`: keep iff `is_archived` is falsy. -/
def excludeArchivedPred (doc : Doc) : Except Unit Bool :=
  (metaDict doc).map (fun l =>
    match alookup l "is_archived".data with
    | none => true
    | some v => ! pyTruthy v)

/-- `_filter_include_images`: keep iff `has_images` is truthy. -/
def includeImagesPred (doc : Doc) : Except Unit Bool :=
  (metaDict doc).map (fun l =>
    match alookup l "has_images".data with
    | none => false
    | some v => pyTruthy v)

/-- `_filter_exclude_images`: keep iff `has_images` is falsy. -/
def excludeImagesPred (doc : Doc) : Except Unit Bool :=
  (metaDict doc).map (fun l =>
    match alookup l "has_images".data with
    | none => true
    | some v => ! pyTruthy v)

/-- The `predefined_filters` registry of `MetadataFilter.__init__`; an
unknown name is skipped with a warning (`none`). -/
def predefinedPass (env : PyEnv) (name : Str) : Option (Doc → Except Unit Bool) :=
  if name = "recent_docs".data then some (recentPred env)
  else if name = "high_quality".data then some highQualityPred
  else if name = "official_sources".data then some officialPred
  else if name = "code_docs".data then some codeDocsPred
  else if name = "tutorial_docs".data then some tutorialPred
  else if name = "exclude_archived".data then some excludeArchivedPred
  else if name = "include_images".data then some includeImagesPred
  else if name = "exclude_images".data then some excludeImagesPred
  else none

/-- One filtering pass over the document list; an exception from the
predicate aborts the pass (first offender wins, but the partial output is
discarded anyway). -/
def runPass (p : Doc → Except Unit Bool) : List Doc → Except Unit (List Doc)
  | [] => .ok []
  | d :: t =>
    match p d with
    | .error e => .error e
    | .ok b =>
      match runPass p t with
      | .error e => .error e
      | .ok r => .ok (if b then d :: r else r)

/-- The passes of one `filter_documents` call: predefined bundles first (in
the order given, unknown names skipped), then the explicit conditions
(which never raise — `_evaluate_condition` catches internally). -/
def passesOf (env : PyEnv) (conditions : List FilterCondition)
    (predefined : List Str) : List (Doc → Except Unit Bool) :=
  predefined.filterMap (predefinedPass env) ++
    conditions.map (fun c => fun doc =>
      .ok (evaluate_condition env (get_nested_field doc.metadata c.field) c))

/-- Sequential application of all passes. -/
def runPasses : List (Doc → Except Unit Bool) → List Doc → Except Unit (List Doc)
  | [], docs => .ok docs
  | p :: ps, docs =>
    match runPass p docs with
    | .error e => .error e
    | .ok r => runPasses ps r

/-- `MetadataFilter.filter_documents`: the surrounding `try/except` returns
the *original* list when any pass raises. -/
def filter_documents (env : PyEnv) (documents : List Doc)
    (conditions : List FilterCondition) (predefined : List Str) : List Doc :=
  match runPasses (passesOf env conditions predefined) documents with
  | .ok r => r
  | .error _ => documents

end MetadataFilter

end ClaimC5

section ClaimC5Proof

namespace MetadataFilter

/-- A successful pass returns a sublist whose members all satisfied the
predicate. -/
theorem runPass_ok (p : Doc → Except Unit Bool) : ∀ (l r : List Doc),
    runPass p l = .ok r → r.Sublist l ∧ ∀ d ∈ r, p d = .ok true := by
  intro l
  induction l with
  | nil =>
    intro r hr
    cases hr
    exact ⟨List.Sublist.refl [], fun d hd => absurd hd (List.not_mem_nil d)⟩
  | cons x t ih =>
    intro r hr
    rw [runPass] at hr
    cases hp : p x with
    | error e => rw [hp] at hr; cases hr
    | ok b =>
      rw [hp] at hr
      cases hrec : runPass p t with
      | error e => rw [hrec] at hr; cases hr
      | ok r2 =>
        rw [hrec] at hr
        rcases ih r2 hrec with ⟨hsub, hmem⟩
        cases hr
        by_cases hb : b
        · rw [if_pos hb]
          refine ⟨List.Sublist.cons₂ x hsub, ?_⟩
          intro d hd
          rcases List.mem_cons.mp hd with hd | hd
          · rw [hd, hp, hb]
          · exact hmem d hd
        · rw [if_neg hb]
          exact ⟨List.Sublist.cons x hsub, hmem⟩

/-- A pass whose predicate accepts every member returns the list
unchanged. -/
theorem runPass_all_true (p : Doc → Except Unit Bool) : ∀ (l : List Doc),
    (∀ d ∈ l, p d = .ok true) → runPass p l = .ok l := by
  intro l
  induction l with
  | nil => intro _; rfl
  | cons x t ih =>
    intro h
    rw [runPass, h x (List.mem_cons_self _ _), ih (fun d hd => h d (List.mem_cons_of_mem _ hd))]
    rfl

/-- A successful run of all passes returns a sublist whose members
satisfied every pass. -/
theorem runPasses_ok : ∀ (ps : List (Doc → Except Unit Bool)) (l r : List Doc),
    runPasses ps l = .ok r → r.Sublist l ∧ ∀ d ∈ r, ∀ p ∈ ps, p d = .ok true := by
  intro ps
  induction ps with
  | nil =>
    intro l r hr
    cases hr
    exact ⟨List.Sublist.refl _, fun d _ p hp => absurd hp (List.not_mem_nil p)⟩
  | cons p ps ih =>
    intro l r hr
    rw [runPasses] at hr
    cases h1 : runPass p l with
    | error e => rw [h1] at hr; cases hr
    | ok r1 =>
      rw [h1] at hr
      rcases runPass_ok p l r1 h1 with ⟨hsub1, hmem1⟩
      rcases ih r1 r hr with ⟨hsub2, hmem2⟩
      refine ⟨hsub2.trans hsub1, ?_⟩
      intro d hd q hq
      rcases List.mem_cons.mp hq with hq | hq
      · rw [hq]
        exact hmem1 d (hsub2.subset hd)
      · exact hmem2 d hd q hq

/-- Running all passes over a list every pass accepts returns it
unchanged. -/
theorem runPasses_all_true : ∀ (ps : List (Doc → Except Unit Bool)) (l : List Doc),
    (∀ d ∈ l, ∀ p ∈ ps, p d = .ok true) → runPasses ps l = .ok l := by
  intro ps
  induction ps with
  | nil => intro l _; rfl
  | cons p ps ih =>
    intro l h
    rw [runPasses, runPass_all_true p l (fun d hd => h d hd p (List.mem_cons_self _ _))]
    exact ih l (fun d hd q hq => h d hd q (List.mem_cons_of_mem _ hq))

end MetadataFilter

/-- C5: for every document list, explicit condition list, and predefined
filter-bundle names, `filter_documents` returns at most as many documents
as given, and applying the same call to its own output returns that output
unchanged (idempotence). -/
theorem C5_filter_monotone_idempotent :
    ∀ (env : MetadataFilter.PyEnv) (documents : List Doc)
      (conditions : List MetadataFilter.FilterCondition) (predefined : List Str),
      (MetadataFilter.filter_documents env documents conditions predefined).length
        ≤ documents.length ∧
      MetadataFilter.filter_documents env
          (MetadataFilter.filter_documents env documents conditions predefined)
          conditions predefined
        = MetadataFilter.filter_documents env documents conditions predefined := by
  intro env documents conditions predefined
  rw [MetadataFilter.filter_documents]
  cases hrun : MetadataFilter.runPasses
      (MetadataFilter.passesOf env conditions predefined) documents with
  | error e =>
    refine ⟨le_refl _, ?_⟩
    rw [MetadataFilter.filter_documents, hrun]
  | ok r =>
    rcases MetadataFilter.runPasses_ok _ documents r hrun with ⟨hsub, hmem⟩
    refine ⟨hsub.length_le, ?_⟩
    rw [MetadataFilter.filter_documents,
      MetadataFilter.runPasses_all_true _ r (fun d hd p hp => hmem d hd p hp)]

end ClaimC5Proof

section ClaimC8

namespace IntentRecognizer

/-- `QueryType` enum from `intent_recognizer.py`. -/
inductive QueryType where
  | factual
  | conceptual
  | procedural
  | comparative
  | troubleshooting
  | unknown
deriving DecidableEq

/-- `Complexity` enum from `intent_recognizer.py`. -/
inductive Complexity where
  | simple
  | complex
  | multi_turn
deriving DecidableEq

/-- `.value` strings of `QueryType`. -/
def QueryType.value : QueryType → Str
  | .factual => "factual".data
  | .conceptual => "conceptual".data
  | .procedural => "procedural".data
  | .comparative => "comparative".data
  | .troubleshooting => "troubleshooting".data
  | .unknown => "unknown".data

/-- `.value` strings of `Complexity`. -/
def Complexity.value : Complexity → Str
  | .simple => "simple".data
  | .complex => "complex".data
  | .multi_turn => "multi_turn".data

/-- The `type_keywords` table of `QueryClassifier`, in declaration order. -/
def type_keywords : List (QueryType × List Str) :=
  [(.factual, (["什么是", "多少", "几", "何时", "哪里", "谁", "哪个", "原因", "定义", "介绍",
      "what is", "how many", "when", "where", "who", "which", "reason", "define",
      "introduction"] : List String).map String.data),
   (.conceptual, (["解释", "说明", "原理", "概念", "定义", "含义",
      "explain", "concept", "definition", "meaning", "principle"] : List String).map String.data),
   (.procedural, (["如何", "怎么", "步骤", "方法", "流程", "操作",
      "how to", "step", "method", "process", "procedure"] : List String).map String.data),
   (.comparative, (["比较", "区别", "差异", "vs", "versus", "对比",
      "compare", "difference", "versus", "vs"] : List String).map String.data),
   (.troubleshooting, (["错误", "问题", "故障", "失败", "解决", "修复",
      "error", "problem", "issue", "fix", "solve", "troubleshoot"] : List String).map String.data)]

/-- `sum(1 for keyword in keywords if keyword in query_lower)`. -/
def keywordScore (ql : Str) (kws : List Str) : ℕ :=
  (kws.filter (fun k => containsSub ql k)).length

/-- Python `max(items, key=...)`: the first item with the maximal score
wins (later items replace only on a strictly greater score). -/
def maxFirst : List (QueryType × ℕ) → QueryType × ℕ → QueryType × ℕ
  | [], acc => acc
  | x :: t, acc => maxFirst t (if x.2 > acc.2 then x else acc)

/-- `QueryClassifier.classify`. -/
def classify (query : Str) : QueryType :=
  let ql := lowerStr query
  let scores := type_keywords.map (fun p => (p.1, keywordScore ql p.2))
  match scores with
  | [] => .unknown
  | s :: t =>
    let best := maxFirst t s
    if best.2 > 0 then best.1 else .unknown

/-- Occurrences of one character in a string (`str.count` for a
single-character needle). -/
def countChar (s : Str) (c : Char) : ℕ := (s.filter (fun x => x = c)).length

/-- The connector words of `ComplexityAnalyzer.analyze`. -/
def complexity_connectors : List Str :=
  (["和", "或", "与", "and", "or", "with"] : List String).map String.data

/-- `ComplexityAnalyzer.analyze`: length, token count, question marks
(weight 2) and connector words (weight 1.5); ≥ 3 ⇒ complex, otherwise
simple (both remaining branches return simple). -/
def analyze_complexity (query : Str) : Complexity :=
  let score : ℚ :=
    (if query.length > 50 then 2 else 0) +
    (if (splitWs query).length > 3 then 1 else 0) +
    (countChar query '?' + countChar query '？') * 2 +
    ((complexity_connectors.filter (fun c => containsSub (lowerStr query) c)).length : ℚ) * (3/2)
  if score ≥ 3 then .complex
  else if score ≥ 1 then .simple
  else .simple

/-- A user profile (the dict built by `UserProfiler._get_default_profile`;
as a non-empty dict it is always truthy). -/
structure Profile where
  preferred_strategy : Str
  complexity_level : Str
  response_speed : Str
  technical_level : Str
deriving DecidableEq

/-- `UserProfiler._get_default_profile`. -/
def default_profile : Profile :=
  { preferred_strategy := "hybrid".data
    complexity_level := "simple".data
    response_speed := "normal".data
    technical_level := "intermediate".data }

/-- The user context dict passed to `recognize_intent`: the fields the
core reads (`user_id`, `conversation_history` — modelled by each item's
`"query"` value — and `context`). -/
structure UserContext where
  user_id : Option Str := none
  conversation_history : List Str := []
  context : Option Str := none

/-- Profile store of `UserProfiler` (`self.user_profiles`), insertion
ordered. -/
abbrev ProfilerState := List (Str × Profile)

/-- Lookup in the profile store. -/
def plookup : ProfilerState → Str → Option Profile
  | [], _ => none
  | (k, p) :: t, key => if k = key then some p else plookup t key

/-- `UserProfiler.get_profile`: default for an absent or falsy `user_id`
(not cached), cached profile for a seen id, fresh default (cached) for an
unseen id. -/
def get_profile (state : ProfilerState) (ctx : UserContext) : Profile × ProfilerState :=
  match ctx.user_id with
  | none => (default_profile, state)
  | some uid =>
    if uid.isEmpty then (default_profile, state)
    else
      match plookup state uid with
      | some p => (p, state)
      | none => (default_profile, state ++ [(uid, default_profile)])

/-- Context info built by `ContextAnalyzer.analyze`. -/
structure ContextInfo where
  has_conversation_history : Bool
  conversation_length : ℕ
  recent_topics : List Str
  session_duration : ℕ
deriving DecidableEq

/-- `ContextAnalyzer.analyze`: flags non-empty history and keeps the last
three queries. -/
def analyze_context (ctx : UserContext) : ContextInfo :=
  if ctx.conversation_history.isEmpty then
    { has_conversation_history := false
      conversation_length := 0
      recent_topics := []
      session_duration := 0 }
  else
    { has_conversation_history := true
      conversation_length := ctx.conversation_history.length
      recent_topics := ctx.conversation_history.drop (ctx.conversation_history.length - 3)
      session_duration := 0 }

/-- The `features` dict of `recognize_intent` (note: its connector list
omits "with", unlike the complexity analyzer's). -/
structure Features where
  query_length : ℕ
  word_count : ℕ
  has_question_mark : Bool
  has_connectors : Bool
  query_type : Str
  complexity : Str
deriving DecidableEq

/-- `IntentInfo` dataclass. -/
structure IntentInfo where
  query_type : QueryType
  complexity : Complexity
  confidence : ℚ
  features : Features
  user_profile : Option Profile := none
  context_info : Option ContextInfo := none

/-- `IntentRecognizer.recognize_intent`: the four analyses (run via
`asyncio.gather` in the source; all pure here), the additive confidence,
and the assembled `IntentInfo`.  Returns the updated profiler state. -/
def recognize_intent (state : ProfilerState) (query : Str) (ctx : UserContext) :
    IntentInfo × ProfilerState :=
  let query_type := classify query
  let complexity := analyze_complexity query
  let pr := get_profile state ctx
  let context_info := analyze_context ctx
  let c0 : ℚ := 1/2
  let c1 := if query_type ≠ .unknown then c0 + 3/10 else c0
  let c2 := if complexity = .simple then c1 + 1/10
    else if complexity = .complex then c1 + 2/10 else c1
  let c3 := if context_info.has_conversation_history then c2 + 1/10 else c2
  let confidence := min 1 c3
  ({ query_type := query_type
     complexity := complexity
     confidence := confidence
     features :=
       { query_length := query.length
         word_count := (splitWs query).length
         has_question_mark := countChar query '?' > 0 || countChar query '？' > 0
         has_connectors := ((["和", "或", "与", "and", "or"] : List String).map
             String.data).any (fun c => containsSub (lowerStr query) c)
         query_type := query_type.value
         complexity := complexity.value }
     user_profile := some pr.1
     context_info := some context_info }, pr.2)

end IntentRecognizer

/-- C8: for every query, user context and profiler state, the confidence of
`recognize_intent` equals
`min(1, 0.5 + (0.3 if type ≠ unknown) + (0.1 if simple / 0.2 if complex)
+ (0.1 if the context has conversation history))`, and in particular lies
in [0.5, 1]. -/
theorem C8_confidence_formula :
    ∀ (state : IntentRecognizer.ProfilerState) (query : Str)
      (ctx : IntentRecognizer.UserContext),
      (IntentRecognizer.recognize_intent state query ctx).1.confidence
        = min 1 ((1 : ℚ)/2
          + (if IntentRecognizer.classify query ≠ IntentRecognizer.QueryType.unknown
             then 3/10 else 0)
          + (if IntentRecognizer.analyze_complexity query = IntentRecognizer.Complexity.simple
             then 1/10
             else if IntentRecognizer.analyze_complexity query
                 = IntentRecognizer.Complexity.complex then 2/10 else 0)
          + (if (IntentRecognizer.analyze_context ctx).has_conversation_history
             then 1/10 else 0)) ∧
      (1 : ℚ)/2 ≤ (IntentRecognizer.recognize_intent state query ctx).1.confidence ∧
      (IntentRecognizer.recognize_intent state query ctx).1.confidence ≤ 1 := by
  intro state query ctx
  have hmc : IntentRecognizer.Complexity.multi_turn ≠ IntentRecognizer.Complexity.complex := by
    decide
  have hms : IntentRecognizer.Complexity.multi_turn ≠ IntentRecognizer.Complexity.simple := by
    decide
  rw [IntentRecognizer.recognize_intent]
  by_cases h1 : IntentRecognizer.classify query ≠ IntentRecognizer.QueryType.unknown <;>
  by_cases h3 : (IntentRecognizer.analyze_context ctx).has_conversation_history <;>
  rcases h2 : IntentRecognizer.analyze_complexity query with _ | _ | _ <;>
  · simp only [h1, h2, h3, if_pos, if_neg, if_true, if_false, ite_true, ite_false]
    norm_num [min_def, hmc, hms]
    try constructor <;> try split <;> norm_num

end ClaimC8


section ClaimC10

namespace StrategyScheduler

open IntentRecognizer

/-- `ServiceType` enum from `strategy_scheduler.py`. -/
inductive ServiceType where
  | vector
  | hybrid
  | enhanced
  | keyword
  | fallback
deriving DecidableEq

/-- `.value` strings of `ServiceType`. -/
def ServiceType.value : ServiceType → Str
  | .vector => "vector".data
  | .hybrid => "hybrid".data
  | .enhanced => "enhanced".data
  | .keyword => "keyword".data
  | .fallback => "fallback".data

/-- `ServiceType(s)`: `none` models the `ValueError` of an invalid value. -/
def parseServiceType (s : Str) : Option ServiceType :=
  if s = "vector".data then some .vector
  else if s = "hybrid".data then some .hybrid
  else if s = "enhanced".data then some .enhanced
  else if s = "keyword".data then some .keyword
  else if s = "fallback".data then some .fallback
  else none

/-- `RetrievalStrategy` dataclass (parameters as a Python dict). -/
structure RetrievalStrategy where
  service_type : ServiceType
  strategy_name : Str
  parameters : List (Str × PyVal)
  reasoning : Str
  confidence : ℚ := 0

/-- One rule of the `StrategyRules` table: an optional condition on query
type and complexity, and the strategy it yields. -/
structure Rule where
  cond_qt : Option QueryType
  cond_cx : Option Complexity
  action : RetrievalStrategy

/-- The ordered rule table of `StrategyRules.__init__`. -/
def rules : List Rule :=
  [{ cond_qt := some .factual, cond_cx := some .simple,
     action := {
       service_type := .vector, strategy_name := "向量检索".data,
       parameters := [("top_k".data, .pnum 5), ("similarity_threshold".data, .pnum (8/10))],
       reasoning := "简单事实查询，使用向量检索快速响应".data } },
   { cond_qt := some .factual, cond_cx := some .complex,
     action := {
       service_type := .hybrid, strategy_name := "混合检索".data,
       parameters := [("vector_weight".data, .pnum (8/10)), ("keyword_weight".data, .pnum (2/10)), ("top_k".data, .pnum 10)],
       reasoning := "复杂事实查询，使用混合检索提高精度".data } },
   { cond_qt := some .conceptual, cond_cx := some .simple,
     action := {
       service_type := .hybrid, strategy_name := "混合检索".data,
       parameters := [("vector_weight".data, .pnum (7/10)), ("keyword_weight".data, .pnum (3/10)), ("top_k".data, .pnum 8)],
       reasoning := "简单概念查询，使用混合检索平衡精度和效率".data } },
   { cond_qt := some .conceptual, cond_cx := some .complex,
     action := {
       service_type := .enhanced, strategy_name := "增强检索流水线".data,
       parameters := [("enable_expansion".data, .pbool true), ("enable_rerank".data, .pbool true), ("top_k".data, .pnum 15)],
       reasoning := "复杂概念查询，使用增强流水线获得最佳效果".data } },
   { cond_qt := some .procedural, cond_cx := some .simple,
     action := {
       service_type := .keyword, strategy_name := "关键词检索".data,
       parameters := [("top_k".data, .pnum 6), ("priority_keywords".data, .plist [.pstr "步骤".data, .pstr "方法".data, .pstr "how".data])],
       reasoning := "简单程序查询，使用关键词检索匹配操作步骤".data } },
   { cond_qt := some .procedural, cond_cx := some .complex,
     action := {
       service_type := .hybrid, strategy_name := "混合检索".data,
       parameters := [("vector_weight".data, .pnum (6/10)), ("keyword_weight".data, .pnum (4/10)), ("top_k".data, .pnum 12)],
       reasoning := "复杂程序查询，使用混合检索提高步骤匹配精度".data } },
   { cond_qt := some .comparative, cond_cx := none,
     action := {
       service_type := .enhanced, strategy_name := "增强检索流水线".data,
       parameters := [("enable_expansion".data, .pbool true), ("enable_rerank".data, .pbool true), ("top_k".data, .pnum 20)],
       reasoning := "比较查询需要多角度信息，使用增强流水线".data } },
   { cond_qt := some .troubleshooting, cond_cx := some .simple,
     action := {
       service_type := .keyword, strategy_name := "关键词检索".data,
       parameters := [("top_k".data, .pnum 5), ("priority_keywords".data, .plist [.pstr "错误".data, .pstr "问题".data, .pstr "解决".data])],
       reasoning := "简单故障查询，使用关键词检索匹配错误信息".data } },
   { cond_qt := some .troubleshooting, cond_cx := some .complex,
     action := {
       service_type := .hybrid, strategy_name := "混合检索".data,
       parameters := [("vector_weight".data, .pnum (5/10)), ("keyword_weight".data, .pnum (5/10)), ("top_k".data, .pnum 15)],
       reasoning := "复杂故障查询，使用混合检索提高问题匹配精度".data } },
   { cond_qt := none, cond_cx := none,
     action := {
       service_type := .vector, strategy_name := "向量检索".data,
       parameters := [("top_k".data, .pnum 10), ("similarity_threshold".data, .pnum (7/10))],
       reasoning := "默认使用向量检索".data } }]

/-- `StrategyRules._match_condition`. -/
def match_condition (r : Rule) (intent : IntentInfo) : Bool :=
  (match r.cond_qt with
   | some qt => decide (intent.query_type = qt)
   | none => true) &&
  (match r.cond_cx with
   | some cx => decide (intent.complexity = cx)
   | none => true)

/-- `StrategyRules.get_strategy`: first matching rule (confidence 0.8), or
the default vector strategy (confidence 0.5). -/
def get_strategy (intent : IntentInfo) : RetrievalStrategy :=
  match rules.find? (fun r => match_condition r intent) with
  | some r => { r.action with confidence := 8/10 }
  | none =>
    { service_type := .vector, strategy_name := "向量检索".data,
      parameters := [("top_k".data, .pnum 10), ("similarity_threshold".data, .pnum (7/10))],
      reasoning := "默认策略".data,
      confidence := 1/2 }

/-- The `{time_constraint, quality_priority, resource_usage}` adjustment
dict of `PerformanceMonitor.get_adjustment`. -/
structure Adjustment where
  time_constraint : Str
  quality_priority : Str
  resource_usage : Str

/-- `PerformanceMonitor.get_adjustment`. -/
def get_adjustment (intent : IntentInfo) : Adjustment :=
  if intent.complexity = .complex then
    { time_constraint := "relaxed".data, quality_priority := "high".data,
      resource_usage := "normal".data }
  else if intent.complexity = .simple then
    { time_constraint := "strict".data, quality_priority := "speed".data,
      resource_usage := "normal".data }
  else
    { time_constraint := "normal".data, quality_priority := "balanced".data,
      resource_usage := "normal".data }

/-- Python `dict.update` for one key: in-place for a present key, append
otherwise. -/
def pupd1 (m : List (Str × PyVal)) (k : Str) (v : PyVal) : List (Str × PyVal) :=
  match m with
  | [] => [(k, v)]
  | (k2, v2) :: t => if k2 = k then (k2, v) :: t else (k2, v2) :: pupd1 t k v

/-- Python `dict.update` with another dict. -/
def pupdate (m add : List (Str × PyVal)) : List (Str × PyVal) :=
  add.foldl (fun acc p => pupd1 acc p.1 p.2) m

/-- The `speed_priority` adaptation rules. -/
def speed_priority_update : List (Str × PyVal) :=
  [("enable_expansion".data, .pbool false), ("enable_rerank".data, .pbool false)]

/-- The `low_quality` adaptation rules. -/
def low_quality_update : List (Str × PyVal) :=
  [("enable_rerank".data, .pbool true), ("rerank_top_k".data, .pnum 30)]

/-- The performance-driven parameter adaptation step of
`AdaptiveSelector.optimize`. -/
def perfAdapt (base : RetrievalStrategy) (adj : Adjustment) : RetrievalStrategy :=
  if adj.time_constraint = "strict".data then
    { base with
      parameters := pupdate base.parameters speed_priority_update,
      reasoning := base.reasoning ++ " (速度优先)".data }
  else if adj.quality_priority = "high".data then
    { base with
      parameters := pupdate base.parameters low_quality_update,
      reasoning := base.reasoning ++ " (质量优先)".data }
  else base

/-- The user-preference override step of `AdaptiveSelector.optimize`
(`if intent.user_profile:` — a missing profile is falsy, a profile dict is
truthy; the comparison is against the *base* strategy's service type);
`error` models the `ValueError` of `ServiceType(invalid)`. -/
def applyPreference (base o1 : RetrievalStrategy) :
    Option Profile → Except Unit RetrievalStrategy
  | none => .ok o1
  | some p =>
    if ¬ p.preferred_strategy.isEmpty ∧
        ¬ p.preferred_strategy = base.service_type.value then
      match parseServiceType p.preferred_strategy with
      | some st => .ok { o1 with
          service_type := st,
          reasoning := o1.reasoning ++ " (用户偏好: ".data ++ p.preferred_strategy ++ ")".data }
      | none => .error ()
    else .ok o1

/-- `AdaptiveSelector.optimize`: speed/quality parameter adaptation, then
the user-preference override of `service_type` (recorded in `reasoning`). -/
def optimize (base : RetrievalStrategy) (adj : Adjustment) (intent : IntentInfo) :
    Except Unit RetrievalStrategy :=
  applyPreference base (perfAdapt base adj) intent.user_profile

/-- `StrategyScheduler.select_strategy`: rule match → performance
adjustment → adaptive override. -/
def select_strategy (intent : IntentInfo) : Except Unit RetrievalStrategy :=
  optimize (get_strategy intent) (get_adjustment intent) intent

/-- A looked-up profile is stored in the profiler state. -/
theorem plookup_mem : ∀ (state : ProfilerState) (uid : Str) (p : Profile),
    plookup state uid = some p → ∃ k, (k, p) ∈ state := by
  intro state
  induction state with
  | nil => intro uid p h; cases h
  | cons e t ih =>
    intro uid p h
    rw [show plookup (e :: t) uid = (if e.1 = uid then some e.2 else plookup t uid)
      from by cases e; rfl] at h
    by_cases he : e.1 = uid
    · rw [if_pos he] at h
      refine ⟨e.1, ?_⟩
      cases h
      exact List.mem_cons_self _ _
    · rw [if_neg he] at h
      rcases ih uid p h with ⟨k, h2⟩
      exact ⟨k, List.mem_cons_of_mem _ h2⟩

/-- Under the all-default invariant, `get_profile` always hands back the
default profile. -/
theorem get_profile_default (state : ProfilerState) (ctx : UserContext)
    (hinv : ∀ e ∈ state, e.2 = default_profile) :
    (get_profile state ctx).1 = default_profile := by
  rw [get_profile]
  cases huid : ctx.user_id with
  | none => rfl
  | some uid =>
    by_cases hu : uid.isEmpty
    · simp [hu]
    · cases hl : plookup state uid with
      | none => simp [hu, hl]
      | some p =>
        rcases plookup_mem state uid p hl with ⟨k, h2⟩
        have hp : p = default_profile := hinv (k, p) h2
        simp [hu, hl, hp]

end StrategyScheduler

/-- C10: for every query, user context, and profiler state holding only
default profiles (the only profiles the code ever stores), the strategy
selected for the recognized intent has `service_type = hybrid`: the
attached user profile always prefers "hybrid", and `optimize` overrides any
differing rule-selected service type, appending the override to the
reasoning string. -/
theorem C10_selected_strategy_is_hybrid :
    ∀ (state : IntentRecognizer.ProfilerState) (query : Str)
      (ctx : IntentRecognizer.UserContext),
      (∀ e ∈ state, e.2 = IntentRecognizer.default_profile) →
      ((IntentRecognizer.recognize_intent state query ctx).1.user_profile.map
          IntentRecognizer.Profile.preferred_strategy = some "hybrid".data) ∧
      ∃ s, StrategyScheduler.select_strategy
            (IntentRecognizer.recognize_intent state query ctx).1 = .ok s ∧
        s.service_type = StrategyScheduler.ServiceType.hybrid ∧
        ((StrategyScheduler.get_strategy
            (IntentRecognizer.recognize_intent state query ctx).1).service_type
              ≠ StrategyScheduler.ServiceType.hybrid →
          ∃ pre, s.reasoning
            = pre ++ " (用户偏好: ".data ++ "hybrid".data ++ ")".data) := by
  intro state query ctx hinv
  have hprof : (IntentRecognizer.recognize_intent state query ctx).1.user_profile
      = some IntentRecognizer.default_profile := by
    rw [IntentRecognizer.recognize_intent]
    show some (IntentRecognizer.get_profile state ctx).1 = _
    rw [StrategyScheduler.get_profile_default state ctx hinv]
  refine ⟨by rw [hprof]; rfl, ?_⟩
  rw [StrategyScheduler.select_strategy, StrategyScheduler.optimize, hprof,
    StrategyScheduler.applyPreference]
  have hpe : ¬ (IntentRecognizer.default_profile.preferred_strategy).isEmpty = true := by decide
  by_cases hbase : (StrategyScheduler.get_strategy
      (IntentRecognizer.recognize_intent state query ctx).1).service_type
        = StrategyScheduler.ServiceType.hybrid
  · have hcond : ¬ (¬ (IntentRecognizer.default_profile.preferred_strategy).isEmpty = true ∧
        ¬ IntentRecognizer.default_profile.preferred_strategy
          = (StrategyScheduler.get_strategy
              (IntentRecognizer.recognize_intent state query ctx).1).service_type.value) := by
      intro hc
      exact hc.2 (by rw [hbase]; rfl)
    rw [if_neg hcond]
    refine ⟨_, rfl, ?_, fun hne => absurd hbase hne⟩
    rw [StrategyScheduler.perfAdapt]
    by_cases hadj : (StrategyScheduler.get_adjustment
        (IntentRecognizer.recognize_intent state query ctx).1).time_constraint = "strict".data
    · rw [if_pos hadj]
      exact hbase
    · rw [if_neg hadj]
      by_cases hadj2 : (StrategyScheduler.get_adjustment
          (IntentRecognizer.recognize_intent state query ctx).1).quality_priority = "high".data
      · rw [if_pos hadj2]
        exact hbase
      · rw [if_neg hadj2]
        exact hbase
  · have hvalne : ¬ IntentRecognizer.default_profile.preferred_strategy
        = (StrategyScheduler.get_strategy
            (IntentRecognizer.recognize_intent state query ctx).1).service_type.value := by
      intro he
      rcases h5 : (StrategyScheduler.get_strategy
          (IntentRecognizer.recognize_intent state query ctx).1).service_type with
        _ | _ | _ | _ | _
      all_goals rw [h5] at he
      · exact absurd he (by decide)
      · exact hbase h5
      · exact absurd he (by decide)
      · exact absurd he (by decide)
      · exact absurd he (by decide)
    rw [if_pos ⟨hpe, hvalne⟩]
    rw [show StrategyScheduler.parseServiceType
        IntentRecognizer.default_profile.preferred_strategy
      = some StrategyScheduler.ServiceType.hybrid from by decide]
    exact ⟨_, rfl, rfl, fun _ => ⟨_, rfl⟩⟩

/-- C10 (witness): at the empty profiler state, query "x" and an empty
context, the selected strategy's service type is hybrid. -/
theorem C10_selected_strategy_is_hybrid_witness :
    (StrategyScheduler.select_strategy
        (IntentRecognizer.recognize_intent [] "x".data
          { user_id := none, conversation_history := [], context := none }).1).map
      StrategyScheduler.RetrievalStrategy.service_type
      = .ok StrategyScheduler.ServiceType.hybrid := by
  obtain ⟨-, s, hs, hst, -⟩ :=
    C10_selected_strategy_is_hybrid [] "x".data
      { user_id := none, conversation_history := [], context := none }
      (fun e he => absurd he (List.not_mem_nil e))
  rw [hs, Except.map, hst]

end ClaimC10

section ClaimC6

namespace IntelligentRetrievalService

/-- The plain vector-search backend (`VectorService.search_text`): returns
candidate documents or raises (`error` carries the exception message). -/
structure VecService where
  search_text : Str → List Str → ℕ → Except Str (List Doc)

/-- The `strategy_used` part of the response. -/
structure StrategyUsed where
  service_type : Str
  strategy_name : Str
  reasoning : Str
deriving DecidableEq

/-- The `intent_analysis` part of the response. -/
structure IntentAnalysis where
  query_type : Str
  complexity : Str
  confidence : ℚ
deriving DecidableEq

/-- The schema of `intelligent_search`'s response dict (timing metrics are
wall-clock and not modelled; the aggregate-stats update of step 6 mutates
counters only and does not affect the response). -/
structure Response where
  success : Bool
  results : List Doc
  strategy_used : StrategyUsed
  intent_analysis : IntentAnalysis
  message : Str

/-- Steps 1–3 and 7 of `intelligent_search`'s `try` block: intent
recognition, strategy selection (or forcing), execution, and response
assembly.  The collaborators are abstract fallible operations — any
unhandled internal exception is an `error` of one of them. -/
def tryBlock
    (recognize : Str → IntentRecognizer.UserContext →
      Except Str IntentRecognizer.IntentInfo)
    (select : IntentRecognizer.IntentInfo →
      Except Str StrategyScheduler.RetrievalStrategy)
    (getByName : Str → StrategyScheduler.RetrievalStrategy)
    (execute : StrategyScheduler.RetrievalStrategy → Str → List Str →
      IntentRecognizer.UserContext → Except Str (List Doc))
    (query : Str) (kb_ids : List Str) (ctx : IntentRecognizer.UserContext)
    (force_strategy : Option Str) : Except Str Response := do
  let intent ← recognize query ctx
  let strategy ← match force_strategy with
    | some f => pure (getByName f)
    | none => select intent
  let results ← execute strategy query kb_ids ctx
  pure
    { success := true,
      results := results,
      strategy_used :=
        { service_type := strategy.service_type.value,
          strategy_name := strategy.strategy_name,
          reasoning := strategy.reasoning },
      intent_analysis :=
        { query_type := intent.query_type.value,
          complexity := intent.complexity.value,
          confidence := intent.confidence },
      message := "检索成功".data }

/-- `IntelligentRetrievalService._fallback_search`: plain vector search
with `top_k = 5`; empty when the backend is absent or raises. -/
def fallback_search (vs : Option VecService) (query : Str) (kb_ids : List Str) : List Doc :=
  match vs with
  | some v =>
    match v.search_text query kb_ids 5 with
    | .ok results => results
    | .error _ => []
  | none => []

/-- `IntelligentRetrievalService.intelligent_search`: the `except` branch
converts any exception into a `success=false` response built around the
fallback results. -/
def intelligent_search
    (recognize : Str → IntentRecognizer.UserContext →
      Except Str IntentRecognizer.IntentInfo)
    (select : IntentRecognizer.IntentInfo →
      Except Str StrategyScheduler.RetrievalStrategy)
    (getByName : Str → StrategyScheduler.RetrievalStrategy)
    (execute : StrategyScheduler.RetrievalStrategy → Str → List Str →
      IntentRecognizer.UserContext → Except Str (List Doc))
    (vs : Option VecService)
    (query : Str) (kb_ids : List Str) (ctx : IntentRecognizer.UserContext)
    (force_strategy : Option Str) : Response :=
  match tryBlock recognize select getByName execute query kb_ids ctx force_strategy with
  | .ok r => r
  | .error e =>
    { success := false,
      results := fallback_search vs query kb_ids,
      strategy_used :=
        { service_type := "fallback".data,
          strategy_name := "降级检索".data,
          reasoning := "智能检索失败，使用降级策略: ".data ++ e },
      intent_analysis :=
        { query_type := "unknown".data,
          complexity := "unknown".data,
          confidence := 0 },
      message := "检索失败: ".data ++ e }

end IntelligentRetrievalService

/-- C6: `intelligent_search` never propagates an exception (it is a total
function into the response schema); whenever its try-block raises, the
response has `success = false`, a non-empty error message, and a
best-effort fallback result set obtained by plain vector search capped at
5 items (given the backend's interface contract of returning at most
`top_k` documents), empty if the fallback backend is absent or also
fails. -/
theorem C6_error_path_contract :
    ∀ (recognize : Str → IntentRecognizer.UserContext →
        Except Str IntentRecognizer.IntentInfo)
      (select : IntentRecognizer.IntentInfo →
        Except Str StrategyScheduler.RetrievalStrategy)
      (getByName : Str → StrategyScheduler.RetrievalStrategy)
      (execute : StrategyScheduler.RetrievalStrategy → Str → List Str →
        IntentRecognizer.UserContext → Except Str (List Doc))
      (vs : Option IntelligentRetrievalService.VecService)
      (query : Str) (kb_ids : List Str) (ctx : IntentRecognizer.UserContext)
      (force_strategy : Option Str),
      (∀ v, vs = some v → ∀ q2 kb2 k l, v.search_text q2 kb2 k = .ok l → l.length ≤ k) →
      ∀ e, IntelligentRetrievalService.tryBlock recognize select getByName execute
          query kb_ids ctx force_strategy = .error e →
        (IntelligentRetrievalService.intelligent_search recognize select getByName execute
            vs query kb_ids ctx force_strategy).success = false ∧
        (IntelligentRetrievalService.intelligent_search recognize select getByName execute
            vs query kb_ids ctx force_strategy).message = "检索失败: ".data ++ e ∧
        ¬ (IntelligentRetrievalService.intelligent_search recognize select getByName execute
            vs query kb_ids ctx force_strategy).message.isEmpty ∧
        (IntelligentRetrievalService.intelligent_search recognize select getByName execute
            vs query kb_ids ctx force_strategy).results
          = IntelligentRetrievalService.fallback_search vs query kb_ids ∧
        (IntelligentRetrievalService.intelligent_search recognize select getByName execute
            vs query kb_ids ctx force_strategy).results.length ≤ 5 ∧
        (∀ v, vs = some v → ∀ e2, v.search_text query kb_ids 5 = .error e2 →
          (IntelligentRetrievalService.intelligent_search recognize select getByName execute
            vs query kb_ids ctx force_strategy).results = []) ∧
        (vs = none →
          (IntelligentRetrievalService.intelligent_search recognize select getByName execute
            vs query kb_ids ctx force_strategy).results = []) := by
  intro recognize select getByName execute vs query kb_ids ctx force_strategy hcap e herr
  simp only [IntelligentRetrievalService.intelligent_search, herr]
  refine ⟨trivial, trivial, ?_, trivial, ?_, ?_, ?_⟩
  · show (("检索失败: ".data ++ e).isEmpty = true) → False
    intro h
    rw [show ("检索失败: ".data ++ e) = '检' :: ("索失败: ".data ++ e) from rfl] at h
    simp at h
  · show (IntelligentRetrievalService.fallback_search vs query kb_ids).length ≤ 5
    cases hv : vs with
    | none => rw [IntelligentRetrievalService.fallback_search]; exact Nat.zero_le _
    | some v =>
      rw [IntelligentRetrievalService.fallback_search]
      cases hs : v.search_text query kb_ids 5 with
      | error e2 => exact Nat.zero_le _
      | ok l => exact hcap v hv query kb_ids 5 l hs
  · intro v hv e2 hs
    show IntelligentRetrievalService.fallback_search vs query kb_ids = []
    rw [hv, IntelligentRetrievalService.fallback_search, hs]
  · intro hv
    show IntelligentRetrievalService.fallback_search vs query kb_ids = []
    rw [hv, IntelligentRetrievalService.fallback_search]

/-- C6 (witness): with a failing recognizer, no vector backend, query "q"
and no knowledge bases, the response is a failed one with empty results and
the composed error message. -/
theorem C6_error_path_contract_witness :
    (IntelligentRetrievalService.intelligent_search
        (fun _ _ => .error "boom".data)
        (fun _ => .error "x".data) (fun _ => StrategyScheduler.get_strategy
          (IntentRecognizer.recognize_intent [] "q".data
            { user_id := none, conversation_history := [], context := none }).1)
        (fun _ _ _ _ => .error "y".data) none "q".data [] 
        { user_id := none, conversation_history := [], context := none }
        none).success = false ∧
    (IntelligentRetrievalService.intelligent_search
        (fun _ _ => .error "boom".data)
        (fun _ => .error "x".data) (fun _ => StrategyScheduler.get_strategy
          (IntentRecognizer.recognize_intent [] "q".data
            { user_id := none, conversation_history := [], context := none }).1)
        (fun _ _ _ _ => .error "y".data) none "q".data []
        { user_id := none, conversation_history := [], context := none }
        none).results = [] := by
  obtain ⟨h1, -, -, -, -, -, h7⟩ :=
    C6_error_path_contract (fun _ _ => .error "boom".data)
      (fun _ => .error "x".data) (fun _ => StrategyScheduler.get_strategy
        (IntentRecognizer.recognize_intent [] "q".data
          { user_id := none, conversation_history := [], context := none }).1)
      (fun _ _ _ _ => .error "y".data) none "q".data []
      { user_id := none, conversation_history := [], context := none } none
      (fun v hv => Option.noConfusion hv) "boom".data rfl
  exact ⟨h1, h7 rfl⟩

end ClaimC6

section ClaimC7Retriever

namespace HybridRetriever

/-- `FusionStrategy` enum from `hybrid_retriever.py`. -/
inductive FusionStrategy where
  | weighted_sum
  | reciprocal_rank
  | comb_sum
  | comb_mnz
  | borda_count
deriving DecidableEq

/-- The vector backend used by `HybridRetriever`.  `hybrid_search` is
modelled as returning the already-extracted `"text"` item list (a response
without a `"text"` key is `.ok []`); `error` is a raised exception. -/
structure VectorService where
  hybrid_search : Str → List Str → ℕ → Except Str (List Doc)
  search_text : Str → List Str → ℕ → Except Str (List Doc)

/-- The keyword backend (`keyword_service.search`). -/
structure KeywordService where
  search : Str → List Str → ℕ → Except Str (List Doc)

/-- The fresh result dict built by `_vector_search` / `_keyword_search` /
`_fallback_search`: only the seven listed keys are kept, with `source` set
to the given tag. -/
def mkItem (src : Str) (r : Doc) : Doc :=
  { id := r.id, content := r.content, score := r.score, source := src,
    source_file := r.source_file, knowledge_base_id := r.knowledge_base_id,
    metadata := r.metadata }

/-- `HybridRetriever._vector_search`: any exception yields `[]`. -/
def vector_search (v : VectorService) (q : Str) (kb_ids : List Str) (top_k : ℕ) : List Doc :=
  match v.hybrid_search q kb_ids top_k with
  | .ok items => items.map (mkItem "vector".data)
  | .error _ => []

/-- `HybridRetriever._keyword_search`: any exception yields `[]`. -/
def keyword_search (kw : KeywordService) (q : Str) (kb_ids : List Str) (top_k : ℕ) : List Doc :=
  match kw.search q kb_ids top_k with
  | .ok items => items.map (mkItem "keyword".data)
  | .error _ => []

/-- Vector loop of `_weighted_sum_fusion`: stores the raw score. -/
def wsLoopV : List Doc → List (Str × BAcc) → List (Str × BAcc)
  | [], m => m
  | d :: t, m => wsLoopV t (bupdV m d.id d.score d)

/-- Keyword loop of `_weighted_sum_fusion`. -/
def wsLoopK : List Doc → List (Str × BAcc) → List (Str × BAcc)
  | [], m => m
  | d :: t, m => wsLoopK t (bupdK m d.id d.score d)

/-- `HybridRetriever._weighted_sum_fusion` (weights already normalized by
the constructor, as in the Borda embedding). -/
def weighted_sum_fusion (wv wk : ℚ) (vector_results keyword_results : List Doc) : List Doc :=
  let m := wsLoopK keyword_results (wsLoopV vector_results [])
  m.map (fun p =>
    { p.2.doc with
      fused_score := some (p.2.vscore * wv + p.2.kscore * wk)
      vector_score := some p.2.vscore
      keyword_score := some p.2.kscore })

/-- `HybridRetriever._comb_sum_fusion` simply delegates. -/
def comb_sum_fusion (wv wk : ℚ) (vector_results keyword_results : List Doc) : List Doc :=
  weighted_sum_fusion wv wk vector_results keyword_results

/-- `max([r["score"] for r in results])` with the `else 1.0` default of
`_comb_mnz_fusion`. -/
def maxScore : List Doc → ℚ
  | [] => 1
  | d :: t => t.foldl (fun m x => max m x.score) d.score

/-- Vector loop of `_comb_mnz_fusion`: stores the normalized score.
CPython raises `ZeroDivisionError` when the maximum score is `0.0`
(propagating to `retrieve`'s fallback); `ℚ` division yields `0` instead, a
divergence confined to that degenerate input and unused below. -/
def mnzLoopV (mv : ℚ) : List Doc → List (Str × BAcc) → List (Str × BAcc)
  | [], m => m
  | d :: t, m => mnzLoopV mv t (bupdV m d.id (d.score / mv) d)

/-- Keyword loop of `_comb_mnz_fusion`. -/
def mnzLoopK (mk : ℚ) : List Doc → List (Str × BAcc) → List (Str × BAcc)
  | [], m => m
  | d :: t, m => mnzLoopK mk t (bupdK m d.id (d.score / mk) d)

/-- `HybridRetriever._comb_mnz_fusion`. -/
def comb_mnz_fusion (wv wk : ℚ) (vector_results keyword_results : List Doc) : List Doc :=
  let mv := maxScore vector_results
  let mk := maxScore keyword_results
  let m := mnzLoopK mk keyword_results (mnzLoopV mv vector_results [])
  m.map (fun p =>
    { p.2.doc with
      fused_score := some (p.2.vscore * wv + p.2.kscore * wk)
      vector_score := some p.2.vscore
      keyword_score := some p.2.kscore })

/-- One bucket of the `doc_ranks` defaultdict of
`_reciprocal_rank_fusion`; `none` stands for the `float('inf')` default. -/
structure RAcc where
  vrank : Option ℚ := none
  krank : Option ℚ := none
  doc : Doc
deriving DecidableEq

/-- `doc_ranks[doc_id]["vector_rank"] = i + 1; ...["doc"] = d`. -/
def rupdV (m : List (Str × RAcc)) (id : Str) (rank : ℚ) (d : Doc) : List (Str × RAcc) :=
  match m with
  | [] => [(id, { vrank := some rank, doc := d })]
  | (k, a) :: t =>
    if k = id then (k, { a with vrank := some rank, doc := d }) :: t
    else (k, a) :: rupdV t id rank d

/-- `doc_ranks[doc_id]["keyword_rank"] = i + 1`, keeping the existing
document if any. -/
def rupdK (m : List (Str × RAcc)) (id : Str) (rank : ℚ) (d : Doc) : List (Str × RAcc) :=
  match m with
  | [] => [(id, { krank := some rank, doc := d })]
  | (k, a) :: t =>
    if k = id then (k, { a with krank := some rank }) :: t
    else (k, a) :: rupdK t id rank d

/-- Vector loop of `_reciprocal_rank_fusion` (ranks are 1-based). -/
def rrLoopV : List (ℕ × Doc) → List (Str × RAcc) → List (Str × RAcc)
  | [], m => m
  | (i, d) :: t, m => rrLoopV t (rupdV m d.id ((i : ℚ) + 1) d)

/-- Keyword loop of `_reciprocal_rank_fusion`. -/
def rrLoopK : List (ℕ × Doc) → List (Str × RAcc) → List (Str × RAcc)
  | [], m => m
  | (i, d) :: t, m => rrLoopK t (rupdK m d.id ((i : ℚ) + 1) d)

/-- `1.0 / rank` with `1.0 / float('inf') = 0.0`. -/
def invRank : Option ℚ → ℚ
  | some r => 1 / r
  | none => 0

/-- `HybridRetriever._reciprocal_rank_fusion`.  The output-only
`vector_rank` / `keyword_rank` dict keys (never read downstream) are not
carried on `Doc`. -/
def reciprocal_rank_fusion (wv wk : ℚ) (vector_results keyword_results : List Doc) : List Doc :=
  let m := rrLoopK keyword_results.enum (rrLoopV vector_results.enum [])
  m.map (fun p =>
    { p.2.doc with
      fused_score := some (invRank p.2.vrank * wv + invRank p.2.krank * wk) })

/-- `HybridRetriever._merge_results` strategy dispatch (the trailing
`else` duplicate of weighted-sum is unreachable over the enum). -/
def merge_results (strategy : FusionStrategy) (wv wk : ℚ)
    (vector_results keyword_results : List Doc) : List Doc :=
  match strategy with
  | .weighted_sum => weighted_sum_fusion wv wk vector_results keyword_results
  | .reciprocal_rank => reciprocal_rank_fusion wv wk vector_results keyword_results
  | .comb_sum => comb_sum_fusion wv wk vector_results keyword_results
  | .comb_mnz => comb_mnz_fusion wv wk vector_results keyword_results
  | .borda_count => borda_count_fusion wv wk vector_results keyword_results

/-- The `unique_docs` dict update of `_deduplicate_and_sort`: keep the
version with the strictly higher sort key (`fused_score` falling back to
`score`). -/
def dedupUpd : List (Str × Doc) → Doc → List (Str × Doc)
  | [], r => [(r.id, r)]
  | (k, d) :: t, r =>
    if k = r.id then
      (if d.sortKey < r.sortKey then (k, r) :: t else (k, d) :: t)
    else (k, d) :: dedupUpd t r

/-- `HybridRetriever._deduplicate_and_sort`. -/
def deduplicate_and_sort (results : List Doc) (top_k : ℕ) : List Doc :=
  let unique := results.foldl dedupUpd []
  (sortDescBy Doc.sortKey (unique.map Prod.snd)).take top_k

/-- `HybridRetriever._fallback_search`: plain `search_text`, `[]` when the
vector backend is absent or raises. -/
def retr_fallback_search (vs : Option VectorService) (q : Str) (kb_ids : List Str)
    (top_k : ℕ) : List Doc :=
  match vs with
  | none => []
  | some v =>
    match v.search_text q kb_ids top_k with
    | .ok rs => rs.map (mkItem "fallback".data)
    | .error _ => []

/-- The result-assignment loop of `retrieve` (step 2): slot `i = 0` is
taken as the vector results only when a vector service is configured, slot
`i = 1` as the keyword results only when a keyword service is configured
(`elif`). -/
def assignLoop (hasV hasK : Bool) : List (ℕ × List Doc) → List Doc × List Doc → List Doc × List Doc
  | [], acc => acc
  | (i, r) :: t, (vr, kr) =>
    if i = 0 ∧ hasV = true then assignLoop hasV hasK t (r, kr)
    else if i = 1 ∧ hasK = true then assignLoop hasV hasK t (vr, r)
    else assignLoop hasV hasK t (vr, kr)

/-- Step 3 and 4 of `retrieve`: fuse when both sides are non-empty (Python
truthiness), pass a single side through, `[]` when both are empty; then
deduplicate, sort and truncate. -/
def retrieveMerge (fusion : FusionStrategy) (wv wk : ℚ) (p : List Doc × List Doc)
    (top_k : ℕ) : List Doc :=
  if p.1 ≠ [] ∧ p.2 ≠ [] then deduplicate_and_sort (merge_results fusion wv wk p.1 p.2) top_k
  else if p.1 ≠ [] then deduplicate_and_sort p.1 top_k
  else if p.2 ≠ [] then deduplicate_and_sort p.2 top_k
  else []

/-- `HybridRetriever.retrieve`.  Every internal call catches its own
exceptions (`_vector_search`, `_keyword_search` and the gather use
`return_exceptions=True`), so the surrounding `try`/`except` fallback of
the source is unreachable in this embedding and the function is total. -/
def retrieve (vs : Option VectorService) (ks : Option KeywordService)
    (wv wk : ℚ) (fusion : FusionStrategy)
    (q : Str) (kb_ids : List Str) (top_k : ℕ) : List Doc :=
  let tasks : List (List Doc) :=
    (match vs with
     | some v => [vector_search v q kb_ids (top_k * 2)]
     | none => []) ++
    (match ks with
     | some kw => [keyword_search kw q kb_ids (top_k * 2)]
     | none => [])
  if tasks.isEmpty then retr_fallback_search vs q kb_ids top_k
  else retrieveMerge fusion wv wk (assignLoop vs.isSome ks.isSome tasks.enum ([], [])) top_k

end HybridRetriever

end ClaimC7Retriever

section ClaimC79Pipeline

namespace EnhancedRetrievalPipeline

/-- `PipelineStage` enum from `enhanced_retrieval_pipeline.py`. -/
inductive PipelineStage where
  | query_preprocessing
  | query_expansion
  | metadata_filtering
  | hybrid_retrieval
  | reranking
  | post_processing
deriving DecidableEq

/-- A stage's entry in `stage_results`: a normal stats dict, or the
`{"error": str(e)}` dict of a caught stage failure.  The stats payloads
(counts and wall-clock timings) are not modelled. -/
inductive StageInfo where
  | stats
  | err (msg : Str)
deriving DecidableEq

/-- The `PipelineConfig` fields steering control flow.  The remaining
fields (expansion/fusion/rerank strategies, weights, filter conditions)
only parameterize collaborators that are abstracted as function arguments
below. -/
structure PipelineConfig where
  enable_query_preprocessing : Bool := true
  enable_query_expansion : Bool := true
  expansion_count : ℕ := 3
  enable_metadata_filtering : Bool := true
  enable_hybrid_retrieval : Bool := true
  fusion_strategy : HybridRetriever.FusionStrategy := .weighted_sum
  enable_reranking : Bool := true
  max_retrieval_results : ℕ := 50
  final_top_k : ℕ := 10
  enable_parallel_processing : Bool := true
deriving DecidableEq

/-- The call `self.query_processor.preprocess_query(query, user_context)`
of `_stage_query_preprocessing`: `QueryProcessor.preprocess_query(self,
query)` accepts a single argument besides `self`, so CPython raises
`TypeError` at the call site, before any processing runs. -/
def preprocess_query_call (q : Str) (ctx : Option PyVal) : Except Str Str :=
  .error "QueryProcessor.preprocess_query() takes 2 positional arguments but 3 were given".data

/-- `EnhancedRetrievalPipeline._stage_query_preprocessing`: on an
exception the raw query is returned together with an error entry. -/
def stage_query_preprocessing (q : Str) (ctx : Option PyVal) : Str × StageInfo :=
  match preprocess_query_call q ctx with
  | .ok pq => (pq, .stats)
  | .error e => (q, .err e)

/-- `EnhancedRetrievalPipeline._stage_query_expansion`: delegates to
`expand_query` (candidate expansions abstracted as a function, as in the
expander embedding); the embedded expander is total, so the stage's
`except` path is unreachable. -/
def stage_query_expansion (expansions : Str → List Str) (cnt : ℕ) (q : Str) :
    List Str × StageInfo :=
  (MultiQueryExpander.expand_query q (expansions q) cnt, .stats)

/-- `EnhancedRetrievalPipeline._deduplicate_documents`: keep the first
occurrence of each truthy (non-empty) id, drop falsy ids. -/
def dedupDocsAux : List Doc → List Str → List Doc
  | [], _ => []
  | d :: t, seen =>
    if d.id ≠ [] ∧ d.id ∉ seen then d :: dedupDocsAux t (seen ++ [d.id])
    else dedupDocsAux t seen

/-- `_deduplicate_documents` entry point. -/
def deduplicate_documents (docs : List Doc) : List Doc := dedupDocsAux docs []

/-- `EnhancedRetrievalPipeline._stage_hybrid_retrieval`: one `retrieve`
per expanded query, results concatenated in order and deduplicated.  The
parallel branch (`asyncio.gather` with `return_exceptions=True`) and the
serial branch differ only in exception routing; the embedded `retrieve`
is total, so both reduce to the same concatenation.  With an empty query
list the stats construction raises `IndexError` at `queries[0]`, caught
into an error entry with the documents reset to `[]`. -/
def stage_hybrid_retrieval (vs : Option HybridRetriever.VectorService)
    (ks : Option HybridRetriever.KeywordService) (wv wk : ℚ)
    (fusion : HybridRetriever.FusionStrategy)
    (queries : List Str) (kb_ids : List Str) (max_results : ℕ) :
    List Doc × StageInfo :=
  if queries.isEmpty then ([], .err "list index out of range".data)
  else
    (deduplicate_documents
      ((queries.map (fun q => HybridRetriever.retrieve vs ks wv wk fusion q kb_ids max_results)).flatten),
     .stats)

/-- `EnhancedRetrievalPipeline._convert_to_rerank_results`. -/
def convert_to_rerank_results (docs : List Doc) : List RerankResult :=
  docs.map (fun d =>
    { id := d.id, content := d.content, original_score := d.score,
      rerank_score := d.score, final_score := d.score,
      source_file := d.source_file, knowledge_base_id := d.knowledge_base_id,
      metadata := d.metadata, rerank_reason := "no_reranking".data })

/-- The final-format dict built by `_stage_post_processing`. -/
structure FinalDoc where
  id : Str
  content : Str
  score : ℚ
  source_file : Str
  knowledge_base_id : Str
  metadata : PyVal
  rerank_reason : Str
  original_score : ℚ
  rerank_score : ℚ
deriving DecidableEq

/-- `EnhancedRetrievalPipeline._stage_post_processing`: truncate to
`final_top_k` and flatten each rerank result into the final dict. -/
def stage_post_processing (rs : List RerankResult) (final_top_k : ℕ) :
    List FinalDoc × StageInfo :=
  ((rs.take final_top_k).map (fun r =>
    { id := r.id, content := r.content, score := r.final_score,
      source_file := r.source_file, knowledge_base_id := r.knowledge_base_id,
      metadata := r.metadata, rerank_reason := r.rerank_reason,
      original_score := r.original_score, rerank_score := r.rerank_score }),
   .stats)

/-- `PipelineResult` dataclass (timing and aggregate-stats fields are
wall-clock bookkeeping and not modelled). -/
structure PipelineResult where
  query : Str
  original_query : Str
  expanded_queries : List Str
  retrieved_documents : List Doc
  reranked_documents : List RerankResult
  final_documents : List FinalDoc
  stage_results : List (PipelineStage × StageInfo)

/-- `EnhancedRetrievalPipeline.retrieve`.  The metadata-filtering and
reranking stages are abstract collaborators (their internals are settled
by the filter and reranker embeddings); each stage catches its own
exceptions, so the outer `try`/`except` degraded-result branch is
unreachable in this embedding.  Disabled or skipped stages leave the
running values at their initializations from the top of the `try` block
(in particular `expanded_queries = [query]` uses the raw query, bound
before preprocessing reassigns it). -/
def retrieve (vs : Option HybridRetriever.VectorService)
    (ks : Option HybridRetriever.KeywordService) (wv wk : ℚ)
    (filterStage : List Doc → List Doc × StageInfo)
    (rerankStage : Str → List Doc → List RerankResult × StageInfo)
    (expansions : Str → List Str)
    (cfg : PipelineConfig)
    (query : Str) (kb_ids : List Str) (user_context : Option PyVal) : PipelineResult :=
  let query1 := if cfg.enable_query_preprocessing
    then (stage_query_preprocessing query user_context).1 else query
  let s1 : List (PipelineStage × StageInfo) := if cfg.enable_query_preprocessing
    then [(.query_preprocessing, (stage_query_preprocessing query user_context).2)] else []
  let expanded := if cfg.enable_query_expansion
    then (stage_query_expansion expansions cfg.expansion_count query1).1 else [query]
  let s2 : List (PipelineStage × StageInfo) := if cfg.enable_query_expansion
    then [(.query_expansion, (stage_query_expansion expansions cfg.expansion_count query1).2)] else []
  let retrieved0 := if cfg.enable_hybrid_retrieval
    then (stage_hybrid_retrieval vs ks wv wk cfg.fusion_strategy expanded kb_ids
      cfg.max_retrieval_results).1 else []
  let s3 : List (PipelineStage × StageInfo) := if cfg.enable_hybrid_retrieval
    then [(.hybrid_retrieval, (stage_hybrid_retrieval vs ks wv wk cfg.fusion_strategy expanded
      kb_ids cfg.max_retrieval_results).2)] else []
  let retrieved := if cfg.enable_metadata_filtering ∧ retrieved0 ≠ []
    then (filterStage retrieved0).1 else retrieved0
  let s4 : List (PipelineStage × StageInfo) := if cfg.enable_metadata_filtering ∧ retrieved0 ≠ []
    then [(.metadata_filtering, (filterStage retrieved0).2)] else []
  let reranked := if cfg.enable_reranking ∧ retrieved ≠ []
    then (rerankStage query1 retrieved).1 else convert_to_rerank_results retrieved
  let s5 : List (PipelineStage × StageInfo) := if cfg.enable_reranking ∧ retrieved ≠ []
    then [(.reranking, (rerankStage query1 retrieved).2)] else []
  let post := stage_post_processing reranked cfg.final_top_k
  { query := query1,
    original_query := query,
    expanded_queries := expanded,
    retrieved_documents := retrieved,
    reranked_documents := reranked,
    final_documents := post.1,
    stage_results := s1 ++ s2 ++ s3 ++ s4 ++ s5 ++ [(.post_processing, post.2)] }

end EnhancedRetrievalPipeline

end ClaimC79Pipeline

section ClaimC7Proof

/-- Dispatch: with both services configured, `retrieve` gathers both
searches into slots 0 and 1 and merges. -/
theorem retrieve_both_services (v : HybridRetriever.VectorService)
    (kw : HybridRetriever.KeywordService) (wv wk : ℚ)
    (fusion : HybridRetriever.FusionStrategy) (q : Str) (kb : List Str) (n : ℕ) :
    HybridRetriever.retrieve (some v) (some kw) wv wk fusion q kb n =
      HybridRetriever.retrieveMerge fusion wv wk
        (HybridRetriever.assignLoop true true
          [(0, HybridRetriever.vector_search v q kb (n * 2)),
           (1, HybridRetriever.keyword_search kw q kb (n * 2))] ([], [])) n := rfl

/-- The assignment loop over the two gathered slots. -/
theorem assignLoop_two (vr kr : List Doc) :
    HybridRetriever.assignLoop true true [(0, vr), (1, kr)] ([], []) = (vr, kr) := by
  rw [HybridRetriever.assignLoop]
  rw [if_pos ⟨rfl, rfl⟩]
  rw [HybridRetriever.assignLoop]
  rw [if_neg (by simp), if_pos ⟨rfl, rfl⟩]
  rfl

/-- Merging two empty sides yields the empty list. -/
theorem retrieveMerge_nil_nil (fusion : HybridRetriever.FusionStrategy) (wv wk : ℚ) (n : ℕ) :
    HybridRetriever.retrieveMerge fusion wv wk ([], []) n = [] := by
  rw [HybridRetriever.retrieveMerge]
  rw [if_neg (by simp), if_neg (by simp), if_neg (by simp)]

/-- Flattening a list of all-empty lists. -/
theorem flatten_of_map_nil {α β : Type} (f : β → List α) (l : List β)
    (h : ∀ x, f x = []) : (l.map f).flatten = [] := by
  induction l with
  | nil => rfl
  | cons a t ih => simp [h, ih]

end ClaimC7Proof

/-- C7: if both backends always fail (every `hybrid_search`, `search_text`
and keyword `search` call raises), then `HybridRetriever.retrieve` returns
`[]` for every query — it is a total function, no exception escapes — and
the pipeline, for every configuration and abstract filter/rerank
collaborators, still records the post-processing stage and returns
`final_documents = []`. -/
theorem C7_double_backend_failure :
    ∀ (v : HybridRetriever.VectorService) (kw : HybridRetriever.KeywordService)
      (wv wk : ℚ)
      (filterStage : List Doc → List Doc × EnhancedRetrievalPipeline.StageInfo)
      (rerankStage : Str → List Doc → List RerankResult × EnhancedRetrievalPipeline.StageInfo)
      (expansions : Str → List Str)
      (cfg : EnhancedRetrievalPipeline.PipelineConfig)
      (query : Str) (kb_ids : List Str) (ctx : Option PyVal),
      (∀ q kb k, ∃ e, v.hybrid_search q kb k = .error e) →
      (∀ q kb k, ∃ e, v.search_text q kb k = .error e) →
      (∀ q kb k, ∃ e, kw.search q kb k = .error e) →
      (∀ q kb n, ∀ fusion, HybridRetriever.retrieve (some v) (some kw) wv wk fusion q kb n = []) ∧
      (EnhancedRetrievalPipeline.retrieve (some v) (some kw) wv wk filterStage rerankStage
          expansions cfg query kb_ids ctx).final_documents = [] ∧
      (.post_processing, .stats) ∈ (EnhancedRetrievalPipeline.retrieve (some v) (some kw) wv wk
          filterStage rerankStage expansions cfg query kb_ids ctx).stage_results := by
  intro v kw wv wk filterStage rerankStage expansions cfg query kb_ids ctx hv hs hk
  have hvs : ∀ q kb n, HybridRetriever.vector_search v q kb n = [] := by
    intro q kb n
    obtain ⟨e, he⟩ := hv q kb n
    simp only [HybridRetriever.vector_search, he]
  have hks : ∀ q kb n, HybridRetriever.keyword_search kw q kb n = [] := by
    intro q kb n
    obtain ⟨e, he⟩ := hk q kb n
    simp only [HybridRetriever.keyword_search, he]
  have hret : ∀ q kb n, ∀ fusion, HybridRetriever.retrieve (some v) (some kw) wv wk fusion q kb n = [] := by
    intro q kb n fusion
    rw [retrieve_both_services, hvs, hks, assignLoop_two, retrieveMerge_nil_nil]
  refine ⟨hret, ?_, ?_⟩
  · have hstage : ∀ queries,
        (EnhancedRetrievalPipeline.stage_hybrid_retrieval (some v) (some kw) wv wk
          cfg.fusion_strategy queries kb_ids cfg.max_retrieval_results).1 = [] := by
      intro qs
      rw [EnhancedRetrievalPipeline.stage_hybrid_retrieval]
      by_cases hq : qs.isEmpty = true
      · rw [if_pos hq]
      · rw [if_neg hq]
        show EnhancedRetrievalPipeline.deduplicate_documents _ = []
        rw [flatten_of_map_nil _ _ (fun q => hret q kb_ids cfg.max_retrieval_results cfg.fusion_strategy)]
        rfl
    simp only [EnhancedRetrievalPipeline.retrieve, hstage, ite_self, ne_eq,
      not_true_eq_false, and_false, if_false,
      EnhancedRetrievalPipeline.convert_to_rerank_results, List.map_nil,
      EnhancedRetrievalPipeline.stage_post_processing, List.take_nil]
  · have hstage : ∀ queries,
        (EnhancedRetrievalPipeline.stage_hybrid_retrieval (some v) (some kw) wv wk
          cfg.fusion_strategy queries kb_ids cfg.max_retrieval_results).1 = [] := by
      intro qs
      rw [EnhancedRetrievalPipeline.stage_hybrid_retrieval]
      by_cases hq : qs.isEmpty = true
      · rw [if_pos hq]
      · rw [if_neg hq]
        show EnhancedRetrievalPipeline.deduplicate_documents _ = []
        rw [flatten_of_map_nil _ _ (fun q => hret q kb_ids cfg.max_retrieval_results cfg.fusion_strategy)]
        rfl
    simp only [EnhancedRetrievalPipeline.retrieve, hstage, ite_self, ne_eq,
      not_true_eq_false, and_false, if_false,
      EnhancedRetrievalPipeline.convert_to_rerank_results, List.map_nil,
      EnhancedRetrievalPipeline.stage_post_processing, List.take_nil]
    simp [List.mem_append]

section ClaimC7Witness

/-- A vector backend whose every call raises. -/
def c7v : HybridRetriever.VectorService :=
  ⟨fun _ _ _ => .error "x".data, fun _ _ _ => .error "x".data⟩

/-- A keyword backend whose every call raises. -/
def c7kw : HybridRetriever.KeywordService := ⟨fun _ _ _ => .error "x".data⟩

end ClaimC7Witness

/-- C7 (witness): with concrete always-failing backends, the default
configuration, query "q" and one knowledge base, hybrid retrieval returns
`[]` and the pipeline's final documents are `[]`. -/
theorem C7_double_backend_failure_witness :
    HybridRetriever.retrieve (some c7v) (some c7kw) (7/10) (3/10) .weighted_sum
      "q".data ["kb1".data] 10 = [] ∧
    (EnhancedRetrievalPipeline.retrieve (some c7v) (some c7kw) (7/10) (3/10)
      (fun d => (d, .stats))
      (fun _ d => (EnhancedRetrievalPipeline.convert_to_rerank_results d, .stats))
      (fun _ => []) {} "q".data ["kb1".data] none).final_documents = [] := by
  obtain ⟨h1, h2, -⟩ := C7_double_backend_failure c7v c7kw (7/10) (3/10)
    (fun d => (d, .stats))
    (fun _ d => (EnhancedRetrievalPipeline.convert_to_rerank_results d, .stats))
    (fun _ => []) {} "q".data ["kb1".data] none
    (fun _ _ _ => ⟨"x".data, rfl⟩) (fun _ _ _ => ⟨"x".data, rfl⟩)
    (fun _ _ _ => ⟨"x".data, rfl⟩)
  exact ⟨h1 "q".data ["kb1".data] 10 .weighted_sum, h2⟩

/-- C9: whenever query preprocessing is enabled, the stage's internal call
`preprocess_query(query, user_context)` raises `TypeError` (the method
accepts only the query), the stage catches it, records an error entry
under `stage_results[query_preprocessing]`, and forwards the query
unchanged, so `PipelineResult.query` equals the raw input query — for
every query, user context, backends, collaborators and configuration. -/
theorem C9_preprocessing_stage_always_fails :
    ∀ (vs : Option HybridRetriever.VectorService)
      (ks : Option HybridRetriever.KeywordService) (wv wk : ℚ)
      (filterStage : List Doc → List Doc × EnhancedRetrievalPipeline.StageInfo)
      (rerankStage : Str → List Doc → List RerankResult × EnhancedRetrievalPipeline.StageInfo)
      (expansions : Str → List Str)
      (cfg : EnhancedRetrievalPipeline.PipelineConfig)
      (query : Str) (kb_ids : List Str) (ctx : Option PyVal),
      cfg.enable_query_preprocessing = true →
      (EnhancedRetrievalPipeline.retrieve vs ks wv wk filterStage rerankStage
          expansions cfg query kb_ids ctx).query = query ∧
      (EnhancedRetrievalPipeline.retrieve vs ks wv wk filterStage rerankStage
          expansions cfg query kb_ids ctx).original_query = query ∧
      (EnhancedRetrievalPipeline.retrieve vs ks wv wk filterStage rerankStage
          expansions cfg query kb_ids ctx).stage_results.lookup .query_preprocessing
        = some (.err "QueryProcessor.preprocess_query() takes 2 positional arguments but 3 were given".data) := by
  intro vs ks wv wk filterStage rerankStage expansions cfg query kb_ids ctx hp
  simp only [EnhancedRetrievalPipeline.retrieve, hp, if_true,
    EnhancedRetrievalPipeline.stage_query_preprocessing,
    EnhancedRetrievalPipeline.preprocess_query_call]
  exact ⟨trivial, trivial, rfl⟩

/-- C9 (witness): with the default configuration (preprocessing enabled),
no backends, query "q": the result's query is the raw input and the
preprocessing stage is recorded as the `TypeError` error entry. -/
theorem C9_preprocessing_stage_always_fails_witness :
    (EnhancedRetrievalPipeline.retrieve none none (7/10) (3/10)
      (fun d => (d, .stats))
      (fun _ d => (EnhancedRetrievalPipeline.convert_to_rerank_results d, .stats))
      (fun _ => []) {} "q".data [] none).query = "q".data ∧
    (EnhancedRetrievalPipeline.retrieve none none (7/10) (3/10)
      (fun d => (d, .stats))
      (fun _ d => (EnhancedRetrievalPipeline.convert_to_rerank_results d, .stats))
      (fun _ => []) {} "q".data [] none).stage_results.lookup .query_preprocessing
      = some (.err "QueryProcessor.preprocess_query() takes 2 positional arguments but 3 were given".data) := by
  obtain ⟨h1, -, h3⟩ := C9_preprocessing_stage_always_fails none none (7/10) (3/10)
    (fun d => (d, .stats))
    (fun _ d => (EnhancedRetrievalPipeline.convert_to_rerank_results d, .stats))
    (fun _ => []) {} "q".data [] none rfl
  exact ⟨h1, h3⟩
